import Mathlib

/-!
# techwikr/go-cli — `main.go`

A shallow embedding of the GitHub activity fetcher: the event formatter
`formatEvent`, its helper `capitalize`, and the control flow of
`fetchUserActivity`, followed by theorems about them.

Conventions of the embedding

* A Go `string` is the list of its bytes (`Bytes`); `len(s)` is the length of
  the list and `s[i:j]` is a checked slice that fails (Go: run-time panic) when
  an index is out of range.  Functions whose Go body can panic return `Option`.
* A `rune` is a natural number; bytes and runes are combined with `/`, `%` and
  `*` by powers of two where the Go library uses shifts and masks.
* `fmt.Sprintf` with the verbs `%s` and `%d` is the concatenation of the literal
  pieces of the format with the arguments (`%s` copies the bytes of a string,
  `%d` prints an `int` in decimal).
* The case table of `unicode.ToUpper` for non-ASCII runes is not part of the
  repository; it is the parameter `upperCase`.
-/

namespace GoCli

/-! ## Strings, runes and UTF-8 (`unicode/utf8`) -/

/-- A Go string: its bytes, in order. -/
abbrev Bytes := List Nat

/-- Go `utf8.RuneError`, the replacement character U+FFFD. -/
def RuneError : Nat := 0xFFFD

/-- Go `string(r)` for a rune `r` (`utf8.AppendRune`): the UTF-8 encoding of `r`,
and the encoding of U+FFFD when `r` is a surrogate or lies above U+10FFFF. -/
def encodeRune (r : Nat) : Bytes :=
  if r ≤ 0x7F then [r]
  else if r ≤ 0x7FF then [0xC0 + r / 64, 0x80 + r % 64]
  else if 0x10FFFF < r ∨ (0xD800 ≤ r ∧ r ≤ 0xDFFF) then [0xEF, 0xBF, 0xBD]
  else if r ≤ 0xFFFF then [0xE0 + r / 4096, 0x80 + r / 64 % 64, 0x80 + r % 64]
  else [0xF0 + r / 262144, 0x80 + r / 4096 % 64, 0x80 + r / 64 % 64, 0x80 + r % 64]

/-- A string literal of the Go source as bytes (Go source text is UTF-8). -/
def str (s : String) : Bytes :=
  s.toList.foldr (fun c acc => encodeRune c.toNat ++ acc) []

/-- The accepted range of the second byte of a multi-byte sequence that starts
with `s0` (Go `acceptRanges[first[s0] >> 4]`). -/
def acceptRange (s0 : Nat) : Nat × Nat :=
  if s0 = 0xE0 then (0xA0, 0xBF)
  else if s0 = 0xED then (0x80, 0x9F)
  else if s0 = 0xF0 then (0x90, 0xBF)
  else if s0 = 0xF4 then (0x80, 0x8F)
  else (0x80, 0xBF)

/-- Go `utf8.DecodeRuneInString`: the first rune of `s` and its width in bytes;
`(RuneError, 0)` for the empty string and `(RuneError, 1)` for an invalid or
truncated encoding. -/
def DecodeRuneInString (s : Bytes) : Nat × Nat :=
  match s with
  | [] => (RuneError, 0)
  | s0 :: rest =>
    if s0 < 0x80 then (s0, 1)
    else if s0 < 0xC2 ∨ 0xF4 < s0 then (RuneError, 1)
    else
      let sz := if s0 < 0xE0 then 2 else if s0 < 0xF0 then 3 else 4
      let accept := acceptRange s0
      if s.length < sz then (RuneError, 1)
      else
        match rest with
        | [] => (RuneError, 1)
        | s1 :: rest1 =>
          if s1 < accept.1 ∨ accept.2 < s1 then (RuneError, 1)
          else if sz ≤ 2 then (s0 % 32 * 64 + s1 % 64, 2)
          else
            match rest1 with
            | [] => (RuneError, 1)
            | s2 :: rest2 =>
              if s2 < 0x80 ∨ 0xBF < s2 then (RuneError, 1)
              else if sz ≤ 3 then (s0 % 16 * 4096 + s1 % 64 * 64 + s2 % 64, 3)
              else
                match rest2 with
                | [] => (RuneError, 1)
                | s3 :: _ =>
                  if s3 < 0x80 ∨ 0xBF < s3 then (RuneError, 1)
                  else (s0 % 8 * 262144 + s1 % 64 * 4096 + s2 % 64 * 64 + s3 % 64, 4)

/-- Go `unicode.ToUpper`: ASCII letters are mapped by arithmetic, every other
rune through the case table (`upperCase`). -/
def ToUpper (upperCase : Nat → Nat) (r : Nat) : Nat :=
  if r ≤ 0x7F then
    if 0x61 ≤ r ∧ r ≤ 0x7A then r - 0x20 else r
  else upperCase r

/-- Go `s[lo:]`: fails when `lo` is negative or beyond `len(s)`. -/
def sliceFrom (s : Bytes) (lo : Int) : Option Bytes :=
  if 0 ≤ lo ∧ lo ≤ (s.length : Int) then some (s.drop lo.toNat) else none

/-- Go `s[:hi]`: fails when `hi` is negative or beyond `len(s)`. -/
def sliceTo (s : Bytes) (hi : Int) : Option Bytes :=
  if 0 ≤ hi ∧ hi ≤ (s.length : Int) then some (s.take hi.toNat) else none

/-- The function `capitalize` of `main.go`. -/
def capitalize (upperCase : Nat → Nat) (s : Bytes) : Option Bytes :=
  if s = [] then some s
  else
    let (r, size) := DecodeRuneInString s
    (sliceFrom s (size : Int)).map (fun tail => encodeRune (ToUpper upperCase r) ++ tail)

/-! ## Decimal numbers (`%d`, `time.appendInt`) -/

/-- The decimal digits of `n`, most significant first, in front of `acc`;
`fuel` bounds the number of digits. -/
def decimalAux : Nat → Nat → Bytes → Bytes
  | 0, _, acc => acc
  | fuel + 1, n, acc =>
    if n < 10 then (0x30 + n) :: acc
    else decimalAux fuel (n / 10) ((0x30 + n % 10) :: acc)

/-- The decimal representation of a natural number. -/
def decimal (n : Nat) : Bytes := decimalAux (n + 1) n []

/-- The verb `%d` of `fmt` applied to an `int`. -/
def formatInt (x : Int) : Bytes :=
  (if x < 0 then [0x2D] else []) ++ decimal x.natAbs

/-- Go `time.appendInt`: a sign for a negative `x`, then the decimal digits of
the magnitude of `x`, padded with zeros on the left to at least `width` digits. -/
def appendInt (x : Int) (width : Nat) : Bytes :=
  let ds := decimal x.natAbs
  (if x < 0 then [0x2D] else []) ++ List.replicate (width - ds.length) 0x30 ++ ds

/-! ## Time (`time.Time`) -/

/-- A `time.Time`, as the calendar date and clock reading in its own location:
the values that `Time.Date` and `Time.Clock` return. -/
structure Time where
  year : Int
  month : Nat
  day : Nat
  hour : Nat
  minute : Nat
  second : Nat
  nanosecond : Nat
  inRange : 1 ≤ month ∧ month ≤ 12 ∧ 1 ≤ day ∧ day ≤ 31 ∧ hour ≤ 23 ∧ minute ≤ 59 ∧
    second ≤ 59 ∧ nanosecond ≤ 999999999

/-- Go `t.Format("2006-01-02 15:04")`: the layout of `formatEvent`, whose
elements are the four-digit year, the zero-padded month, day, hour and minute. -/
def Time.Format (t : Time) : Bytes :=
  appendInt t.year 4 ++ str "-" ++ appendInt t.month 2 ++ str "-" ++ appendInt t.day 2 ++
    str " " ++ appendInt t.hour 2 ++ str ":" ++ appendInt t.minute 2

/-! ## JSON values and `json.Unmarshal` (`encoding/json`) -/

/-- A JSON value.  Strings and object keys are held decoded (escapes resolved);
the members of an object are kept in text order, duplicates included. -/
inductive JValue where
  | null
  | bool (b : Bool)
  | number (literal : Bytes)
  | string (s : Bytes)
  | array (elems : List JValue)
  | object (members : List (Bytes × JValue))

/-- A `json.RawMessage`: no bytes at all, bytes that are not a JSON text, or the
text of a JSON value. -/
inductive RawMessage where
  | absent
  | malformed
  | json (v : JValue)

/-- Go `json.Unmarshal(data, &v)` for a target whose decoding from a JSON value
is `store`: a syntax check of the whole input comes first, and when it fails
(as it does for an empty input) nothing is stored.  Every call in `formatEvent`
discards the returned error, so only the stored value is modelled. -/
def Unmarshal {α : Type} (store : α → JValue → α) (data : RawMessage) (v : α) : α :=
  match data with
  | .json j => store v j
  | .absent => v
  | .malformed => v

/-- Case folding of one rune in an object key (`foldRune`): the smallest rune
of its fold orbit.  U+017F (long s) folds to `S` and U+212A (Kelvin sign) to
`K`; every other non-ASCII rune folds to a non-ASCII rune, which no field name of
this program contains, and is left in place. -/
def foldRune (r : Nat) : Nat :=
  if r = 0x17F then 0x53 else if r = 0x212A then 0x4B else r

/-- Folding of the key `s` (`appendFoldedName`); `fuel` bounds the number of runes. -/
def foldNameAux : Nat → Bytes → Bytes
  | 0, _ => []
  | _ + 1, [] => []
  | fuel + 1, c :: rest =>
    if c < 0x80 then
      (if 0x61 ≤ c ∧ c ≤ 0x7A then c - 0x20 else c) :: foldNameAux fuel rest
    else
      let (r, n) := DecodeRuneInString (c :: rest)
      encodeRune (foldRune r) ++ foldNameAux fuel ((c :: rest).drop n)

/-- Go `foldName` of `encoding/json`. -/
def foldName (s : Bytes) : Bytes := foldNameAux s.length s

/-- Whether the object key `key` selects the struct field with JSON name `name`:
an exact match, or else a match of the folded names. -/
def keyMatches (name key : Bytes) : Bool :=
  key == name || foldName key == foldName name

/-- Storing a JSON value into a Go `string` variable: a JSON string replaces
it; `null` has no effect; any other value is a type mismatch, which is
recorded as the error and skipped. -/
def storeString (cur : Bytes) : JValue → Bytes
  | .string s => s
  | _ => cur

/-- Storing a JSON value into a struct whose only field is a `string` with
JSON name `name`: the members of an object are visited in order and those whose
key selects the field are stored into it; a value that is not an object leaves
the struct as it is. -/
def storeStringField (name : Bytes) (cur : Bytes) : JValue → Bytes
  | .object members =>
    members.foldl (fun acc kv => if keyMatches name kv.1 then storeString acc kv.2 else acc) cur
  | _ => cur

/-- An element of `PushPayload.Commits`. -/
structure Commit where
  Message : Bytes

/-- The type `PushPayload` of `main.go`. -/
structure PushPayload where
  Commits : List Commit

/-- The type `CreatePayload` of `main.go`. -/
structure CreatePayload where
  RefType : Bytes

/-- The type `DeletePayload` of `main.go`. -/
structure DeletePayload where
  RefType : Bytes

/-- The type `IssuesPayload` of `main.go`. -/
structure IssuesPayload where
  Action : Bytes

/-- The type `PullRequestPayload` of `main.go`. -/
structure PullRequestPayload where
  Action : Bytes

/-- Storing a JSON value into one element of `Commits`. -/
def storeCommit (cur : Commit) (v : JValue) : Commit :=
  ⟨storeStringField (str "message") cur.Message v⟩

/-- Storing the elements of a JSON array into a slice of commits: the slice is
extended by one element for every element of the array, whatever that element
is, and the element is then stored into its slot (an existing slot keeps what
the value does not overwrite); the final length is that of the array. -/
def storeElems : List Commit → List JValue → List Commit
  | _, [] => []
  | [], v :: vs => storeCommit ⟨[]⟩ v :: storeElems [] vs
  | c :: cs, v :: vs => storeCommit c v :: storeElems cs vs

/-- Storing a JSON value into the slice `Commits`: an array is stored element by
element, `null` resets the slice to nil, any other value is a type mismatch and
is skipped. -/
def storeCommits (cur : List Commit) : JValue → List Commit
  | .array elems => storeElems cur elems
  | .null => []
  | _ => cur

/-- Storing a JSON value into a `PushPayload`. -/
def storePush (cur : PushPayload) : JValue → PushPayload
  | .object members =>
    members.foldl
      (fun acc kv => if keyMatches (str "commits") kv.1 then ⟨storeCommits acc.Commits kv.2⟩ else acc)
      cur
  | _ => cur

/-- Storing a JSON value into a `CreatePayload`. -/
def storeCreate (cur : CreatePayload) (v : JValue) : CreatePayload :=
  ⟨storeStringField (str "ref_type") cur.RefType v⟩

/-- Storing a JSON value into a `DeletePayload`. -/
def storeDelete (cur : DeletePayload) (v : JValue) : DeletePayload :=
  ⟨storeStringField (str "ref_type") cur.RefType v⟩

/-- Storing a JSON value into an `IssuesPayload`. -/
def storeIssues (cur : IssuesPayload) (v : JValue) : IssuesPayload :=
  ⟨storeStringField (str "action") cur.Action v⟩

/-- Storing a JSON value into a `PullRequestPayload`. -/
def storePullRequest (cur : PullRequestPayload) (v : JValue) : PullRequestPayload :=
  ⟨storeStringField (str "action") cur.Action v⟩

/-! ## Events and the formatter -/

/-- The field `Repo` of `Event`. -/
structure Repo where
  Name : Bytes

/-- The type `Event` of `main.go` (its field `Type` is `Type_` here, `Type` being reserved). -/
structure Event where
  Type_ : Bytes
  CreatedAt : Time
  Repo : Repo
  Payload : RawMessage

/-- The function `formatEvent` of `main.go`. -/
def formatEvent (upperCase : Nat → Nat) (event : Event) : Option Bytes :=
  let timeStr := event.CreatedAt.Format
  let repo := event.Repo.Name
  if event.Type_ = str "PushEvent" then
    let payload := Unmarshal storePush event.Payload ⟨[]⟩
    let count := payload.Commits.length
    let commitWord := if count ≠ 1 then str "commits" else str "commit"
    some (str "🔨 Pushed " ++ formatInt count ++ str " " ++ commitWord ++ str " to " ++ repo ++
      str " (" ++ timeStr ++ str ")")
  else if event.Type_ = str "CreateEvent" then
    let payload := Unmarshal storeCreate event.Payload ⟨[]⟩
    let refType := if payload.RefType = [] then str "repository" else payload.RefType
    some (str "✨ Created " ++ refType ++ str " in " ++ repo ++ str " (" ++ timeStr ++ str ")")
  else if event.Type_ = str "DeleteEvent" then
    let payload := Unmarshal storeDelete event.Payload ⟨[]⟩
    let refType := if payload.RefType = [] then str "branch" else payload.RefType
    some (str "🗑️  Deleted " ++ refType ++ str " in " ++ repo ++ str " (" ++ timeStr ++ str ")")
  else if event.Type_ = str "IssuesEvent" then
    let payload := Unmarshal storeIssues event.Payload ⟨[]⟩
    let action := if payload.Action = [] then str "updated" else payload.Action
    (capitalize upperCase action).map fun cap =>
      str "📝 " ++ cap ++ str " an issue in " ++ repo ++ str " (" ++ timeStr ++ str ")"
  else if event.Type_ = str "IssueCommentEvent" then
    some (str "💬 Commented on an issue in " ++ repo ++ str " (" ++ timeStr ++ str ")")
  else if event.Type_ = str "WatchEvent" then
    some (str "⭐ Starred " ++ repo ++ str " (" ++ timeStr ++ str ")")
  else if event.Type_ = str "ForkEvent" then
    some (str "🍴 Forked " ++ repo ++ str " (" ++ timeStr ++ str ")")
  else if event.Type_ = str "PullRequestEvent" then
    let payload := Unmarshal storePullRequest event.Payload ⟨[]⟩
    let action := if payload.Action = [] then str "updated" else payload.Action
    (capitalize upperCase action).map fun cap =>
      str " " ++ cap ++ str " a pull request in " ++ repo ++ str " (" ++ timeStr ++ str ")"
  else if event.Type_ = str "PullRequestReviewEvent" then
    some (str " Reviewed a pull request in " ++ repo ++ str " (" ++ timeStr ++ str ")")
  else if event.Type_ = str "PullRequestReviewCommentEvent" then
    some (str " Commented on a pull request in " ++ repo ++ str " (" ++ timeStr ++ str ")")
  else if event.Type_ = str "ReleaseEvent" then
    some (str " Published a release in " ++ repo ++ str " (" ++ timeStr ++ str ")")
  else if event.Type_ = str "MemberEvent" then
    some (str " Added a collaborator to " ++ repo ++ str " (" ++ timeStr ++ str ")")
  else
    let len : Int := event.Type_.length
    let stripped : Option Bytes :=
      if len > 5 then
        (sliceFrom event.Type_ (len - 5)).bind fun suffix =>
          if suffix = str "Event" then sliceTo event.Type_ (len - 5) else some event.Type_
      else some event.Type_
    stripped.map fun eventName =>
      str "📌 " ++ eventName ++ str " in " ++ repo ++ str " (" ++ timeStr ++ str ")"

/-! ## The fetcher -/

/-- A `*http.Request`, as far as `fetchUserActivity` sets it up. -/
structure Request where
  Method : Bytes
  URL : Bytes
  Header : List (Bytes × Bytes)

/-- Go `req.Header.Set(key, value)`: the values stored under `key` are replaced. -/
def Request.SetHeader (req : Request) (key value : Bytes) : Request :=
  { req with Header := (key, value) :: req.Header.filter (fun kv => kv.1 != key) }

/-- A `*http.Response`: the status code, and what `io.ReadAll(resp.Body)` will
give — the error text of a failed read, or the bytes of the body. -/
structure Response where
  StatusCode : Int
  Body : Except Bytes Bytes

/-- The answers of the libraries `fetchUserActivity` calls and that are not
determined by the repository: `http.NewRequest` (an error text, or the
request), `http.DefaultClient.Do` (an error text, or the response) and
`json.Unmarshal` of the response body into `[]Event` (an error text, or the
decoded events). -/
structure World where
  NewRequest : Bytes → Bytes → Except Bytes Request
  Do : Request → Except Bytes Response
  UnmarshalEvents : Bytes → Except Bytes (List Event)

/-- How a call ends: it returns `nil`, it returns an error with the given
message, or it panics. -/
inductive Result where
  | ok
  | error (msg : Bytes)
  | panic

/-- A run of `fetchUserActivity`: what it wrote to standard output, and how it
ended. -/
structure Run where
  stdout : Bytes
  result : Result

/-- The loop `for _, event := range events { fmt.Println(formatEvent(event)) }`,
started with `out` already written. -/
def printEvents (upperCase : Nat → Nat) : List Event → Bytes → Run
  | [], out => ⟨out, .ok⟩
  | event :: rest, out =>
    match formatEvent upperCase event with
    | none => ⟨out, .panic⟩
    | some line => printEvents upperCase rest (out ++ line ++ str "\n")

/-- The function `fetchUserActivity` of `main.go`. -/
def fetchUserActivity (upperCase : Nat → Nat) (w : World) (username : Bytes) : Run :=
  let url := str "https://api.github.com/users/" ++ username ++ str "/events"
  let out := str "Fetching activity for GitHub user: " ++ username ++ str "\n\n"
  match w.NewRequest (str "GET") url with
  | .error err => ⟨out, .error (str "error creating request: " ++ err)⟩
  | .ok req =>
    let req := req.SetHeader (str "User-Agent") (str "github-activity-fetcher")
    match w.Do req with
    | .error err => ⟨out, .error (str "error fetching data: " ++ err)⟩
    | .ok resp =>
      if resp.StatusCode = 404 then
        ⟨out, .error (str "user '" ++ username ++ str "' not found")⟩
      else if resp.StatusCode ≠ 200 then
        ⟨out, .error (str "GitHub API returned status code: " ++ formatInt resp.StatusCode)⟩
      else
        match resp.Body with
        | .error err => ⟨out, .error (str "error reading response: " ++ err)⟩
        | .ok body =>
          match w.UnmarshalEvents body with
          | .error err => ⟨out, .error (str "error parsing JSON: " ++ err)⟩
          | .ok events =>
            if events.length = 0 then
              ⟨out ++ str "No recent activity found for this user.\n", .ok⟩
            else
              let out := out ++ (str "Recent activity for " ++ username ++ str ":\n")
              let out := out ++ str "━━━━━━━━━━━━━━━━━━━━━━━━━━━━━━━━━━━━━━━━━━━━━━\n"
              printEvents upperCase events out

/-! ## Vocabulary of the specification -/

/-- The twelve type tags that have a case of their own in `formatEvent`. -/
def recognized : List Bytes :=
  [str "PushEvent", str "CreateEvent", str "DeleteEvent", str "IssuesEvent",
   str "IssueCommentEvent", str "WatchEvent", str "ForkEvent", str "PullRequestEvent",
   str "PullRequestReviewEvent", str "PullRequestReviewCommentEvent", str "ReleaseEvent",
   str "MemberEvent"]

/-- A Unicode scalar value: a rune that has a UTF-8 encoding of its own. -/
def validRune (c : Nat) : Prop := c ≤ 0x10FFFF ∧ ¬ (0xD800 ≤ c ∧ c ≤ 0xDFFF)

instance (c : Nat) : Decidable (validRune c) := by
  unfold validRune
  infer_instance

/-- The emoji/icon prefix of a line: the text before its first space. -/
def glyph (line : Bytes) : Bytes := line.takeWhile (fun b => b != 0x20)

/-- Whether a JSON value is a string. -/
def JValue.isString : JValue → Bool
  | .string _ => true
  | _ => false

/-- Whether a JSON value is an array. -/
def JValue.isArray : JValue → Bool
  | .array _ => true
  | _ => false

/-- A payload that is malformed or type-mismatched for the field `name`: it is
not a JSON text, or it is a JSON value other than an object, or it is an
object in which no member that selects the field holds a value of the JSON
type the field expects. -/
def mismatched (name : Bytes) (expected : JValue → Bool) : RawMessage → Bool
  | .absent => false
  | .malformed => true
  | .json (.object members) => members.all fun kv => !(keyMatches name kv.1 && expected kv.2)
  | .json _ => true

/-- The instant 2024-01-02T03:04:05Z. -/
def sampleTime : Time := ⟨2024, 1, 2, 3, 4, 5, 0, by decide⟩

/-- An event of repository `octo/repo` at `sampleTime`. -/
def sampleEvent (tag : String) (payload : RawMessage) : Event :=
  ⟨str tag, sampleTime, ⟨str "octo/repo"⟩, payload⟩

/-- A case table that maps `é` (U+00E9) to `É` (U+00C9) and fixes every other rune. -/
def sampleUpper (r : Nat) : Nat := if r = 0xE9 then 0xC9 else r

/-- A world in which the request is built and answered with the given status
and body, and in which the body `[]` decodes to no events. -/
def sampleWorld (status : Int) (body : Except Bytes Bytes) : World where
  NewRequest := fun method url => .ok ⟨method, url, []⟩
  Do := fun _ => .ok ⟨status, body⟩
  UnmarshalEvents := fun b =>
    if b = str "[]" then .ok [] else .error (str "unexpected end of JSON input")

/-! ## The program entry point -/

/-- How the process ends: with an exit status, or by a run-time panic. -/
inductive Exit where
  | status (code : Nat)
  | panicked

/-- A run of the program: what it wrote to standard output and to standard
error, and how it ended. -/
structure Process where
  stdout : Bytes
  stderr : Bytes
  exit : Exit

/-- The function `main` of `main.go`, for the argument vector `args` (`os.Args`). -/
def main (upperCase : Nat → Nat) (w : World) (args : List Bytes) : Process :=
  if args.length < 2 then
    ⟨str "Usage: github-activity <username>\n" ++ str "\nExample:\n" ++
      str "  github-activity torvalds\n", [], .status 1⟩
  else
    match args.get? 1 with
    | none => ⟨[], [], .panicked⟩
    | some username =>
      let run := fetchUserActivity upperCase w username
      match run.result with
      | .error msg => ⟨run.stdout, str "Error: " ++ msg ++ str "\n", .status 1⟩
      | .ok => ⟨run.stdout, [], .status 0⟩
      | .panic => ⟨run.stdout, [], .panicked⟩

/-! ## Vocabulary of the later properties -/

/-- What `fmt.Println` writes for each of `lines` in turn: every line followed
by a line feed. -/
def printlnAll (lines : List Bytes) : Bytes :=
  lines.foldr (fun line acc => line ++ str "\n" ++ acc) []

/-- The line `fetchUserActivity` prints before it makes the request. -/
def requestLine (username : Bytes) : Bytes :=
  str "Fetching activity for GitHub user: " ++ username ++ str "\n\n"

/-- The five type tags whose case in `formatEvent` decodes the payload. -/
def payloadKinds : List Bytes :=
  [str "PushEvent", str "CreateEvent", str "DeleteEvent", str "IssuesEvent",
   str "PullRequestEvent"]

/-- A string without line break: none of its bytes is a line feed or a
carriage return. -/
def oneLine (s : Bytes) : Prop := ∀ b ∈ s, b ≠ 0x0A ∧ b ≠ 0x0D

instance (s : Bytes) : Decidable (oneLine s) := by
  unfold oneLine
  infer_instance

/-- The string that `formatEvent` copies out of the payload into the line: the
decoded `ref_type` of a CreateEvent or DeleteEvent, the decoded `action` of an
IssuesEvent or PullRequestEvent, and nothing for every other tag. -/
def consulted (e : Event) : Bytes :=
  if e.Type_ = str "CreateEvent" then (Unmarshal storeCreate e.Payload ⟨[]⟩).RefType
  else if e.Type_ = str "DeleteEvent" then (Unmarshal storeDelete e.Payload ⟨[]⟩).RefType
  else if e.Type_ = str "IssuesEvent" then (Unmarshal storeIssues e.Payload ⟨[]⟩).Action
  else if e.Type_ = str "PullRequestEvent" then
    (Unmarshal storePullRequest e.Payload ⟨[]⟩).Action
  else []

/-- A world that answers `http.NewRequest`, `http.DefaultClient.Do` and the
decoding of the body as given. -/
def worldOf (newRequest : Option Bytes) (answer : Except Bytes Response)
    (events : Except Bytes (List Event)) : World where
  NewRequest := fun method url =>
    match newRequest with
    | some err => .error err
    | none => .ok ⟨method, url, []⟩
  Do := fun _ => answer
  UnmarshalEvents := fun _ => events

/-! ## The cases of `formatEvent` -/

theorem formatEvent_push (up : Nat → Nat) (e : Event) (h : e.Type_ = str "PushEvent") :
    formatEvent up e = some (str "🔨 Pushed " ++
      formatInt (Unmarshal storePush e.Payload ⟨[]⟩).Commits.length ++ str " " ++
      (if (Unmarshal storePush e.Payload ⟨[]⟩).Commits.length ≠ 1 then str "commits"
        else str "commit") ++ str " to " ++ e.Repo.Name ++ str " (" ++ e.CreatedAt.Format ++
      str ")") := by
  unfold formatEvent
  rw [h]
  simp +decide only [if_false, if_true]

theorem formatEvent_create (up : Nat → Nat) (e : Event) (h : e.Type_ = str "CreateEvent") :
    formatEvent up e = some (str "✨ Created " ++
      (if (Unmarshal storeCreate e.Payload ⟨[]⟩).RefType = [] then str "repository"
        else (Unmarshal storeCreate e.Payload ⟨[]⟩).RefType) ++ str " in " ++ e.Repo.Name ++
      str " (" ++ e.CreatedAt.Format ++ str ")") := by
  unfold formatEvent
  rw [h]
  simp +decide only [if_false, if_true]

theorem formatEvent_delete (up : Nat → Nat) (e : Event) (h : e.Type_ = str "DeleteEvent") :
    formatEvent up e = some (str "🗑️  Deleted " ++
      (if (Unmarshal storeDelete e.Payload ⟨[]⟩).RefType = [] then str "branch"
        else (Unmarshal storeDelete e.Payload ⟨[]⟩).RefType) ++ str " in " ++ e.Repo.Name ++
      str " (" ++ e.CreatedAt.Format ++ str ")") := by
  unfold formatEvent
  rw [h]
  simp +decide only [if_false, if_true]

theorem formatEvent_issues (up : Nat → Nat) (e : Event) (h : e.Type_ = str "IssuesEvent") :
    formatEvent up e = (capitalize up
      (if (Unmarshal storeIssues e.Payload ⟨[]⟩).Action = [] then str "updated"
        else (Unmarshal storeIssues e.Payload ⟨[]⟩).Action)).map fun cap =>
      str "📝 " ++ cap ++ str " an issue in " ++ e.Repo.Name ++ str " (" ++ e.CreatedAt.Format ++
        str ")" := by
  unfold formatEvent
  rw [h]
  simp +decide only [if_false, if_true]

theorem formatEvent_issueComment (up : Nat → Nat) (e : Event)
    (h : e.Type_ = str "IssueCommentEvent") :
    formatEvent up e = some (str "💬 Commented on an issue in " ++ e.Repo.Name ++ str " (" ++
      e.CreatedAt.Format ++ str ")") := by
  unfold formatEvent
  rw [h]
  simp +decide only [if_false, if_true]

theorem formatEvent_watch (up : Nat → Nat) (e : Event) (h : e.Type_ = str "WatchEvent") :
    formatEvent up e = some (str "⭐ Starred " ++ e.Repo.Name ++ str " (" ++
      e.CreatedAt.Format ++ str ")") := by
  unfold formatEvent
  rw [h]
  simp +decide only [if_false, if_true]

theorem formatEvent_fork (up : Nat → Nat) (e : Event) (h : e.Type_ = str "ForkEvent") :
    formatEvent up e = some (str "🍴 Forked " ++ e.Repo.Name ++ str " (" ++
      e.CreatedAt.Format ++ str ")") := by
  unfold formatEvent
  rw [h]
  simp +decide only [if_false, if_true]

theorem formatEvent_pullRequest (up : Nat → Nat) (e : Event)
    (h : e.Type_ = str "PullRequestEvent") :
    formatEvent up e = (capitalize up
      (if (Unmarshal storePullRequest e.Payload ⟨[]⟩).Action = [] then str "updated"
        else (Unmarshal storePullRequest e.Payload ⟨[]⟩).Action)).map fun cap =>
      str " " ++ cap ++ str " a pull request in " ++ e.Repo.Name ++ str " (" ++
        e.CreatedAt.Format ++ str ")" := by
  unfold formatEvent
  rw [h]
  simp +decide only [if_false, if_true]

theorem formatEvent_review (up : Nat → Nat) (e : Event)
    (h : e.Type_ = str "PullRequestReviewEvent") :
    formatEvent up e = some (str " Reviewed a pull request in " ++ e.Repo.Name ++ str " (" ++
      e.CreatedAt.Format ++ str ")") := by
  unfold formatEvent
  rw [h]
  simp +decide only [if_false, if_true]

theorem formatEvent_reviewComment (up : Nat → Nat) (e : Event)
    (h : e.Type_ = str "PullRequestReviewCommentEvent") :
    formatEvent up e = some (str " Commented on a pull request in " ++ e.Repo.Name ++
      str " (" ++ e.CreatedAt.Format ++ str ")") := by
  unfold formatEvent
  rw [h]
  simp +decide only [if_false, if_true]

theorem formatEvent_release (up : Nat → Nat) (e : Event) (h : e.Type_ = str "ReleaseEvent") :
    formatEvent up e = some (str " Published a release in " ++ e.Repo.Name ++ str " (" ++
      e.CreatedAt.Format ++ str ")") := by
  unfold formatEvent
  rw [h]
  simp +decide only [if_false, if_true]

theorem formatEvent_member (up : Nat → Nat) (e : Event) (h : e.Type_ = str "MemberEvent") :
    formatEvent up e = some (str " Added a collaborator to " ++ e.Repo.Name ++ str " (" ++
      e.CreatedAt.Format ++ str ")") := by
  unfold formatEvent
  rw [h]
  simp +decide only [if_false, if_true]

/-- The display name of the fallback case: the computation of lines 118–121. -/
theorem formatEvent_unrecognized (up : Nat → Nat) (e : Event) (h : e.Type_ ∉ recognized) :
    formatEvent up e =
      (if (e.Type_.length : Int) > 5 then
        (sliceFrom e.Type_ ((e.Type_.length : Int) - 5)).bind fun suffix =>
          if suffix = str "Event" then sliceTo e.Type_ ((e.Type_.length : Int) - 5)
          else some e.Type_
      else some e.Type_).map fun eventName =>
        str "📌 " ++ eventName ++ str " in " ++ e.Repo.Name ++ str " (" ++ e.CreatedAt.Format ++
          str ")" := by
  simp only [recognized, List.mem_cons, List.mem_singleton, not_or, List.not_mem_nil,
    not_false_eq_true, and_true] at h
  obtain ⟨h1, h2, h3, h4, h5, h6, h7, h8, h9, h10, h11, h12⟩ := h
  unfold formatEvent
  simp only [if_neg h1, if_neg h2, if_neg h3, if_neg h4, if_neg h5, if_neg h6, if_neg h7,
    if_neg h8, if_neg h9, if_neg h10, if_neg h11, if_neg h12]

theorem length_str_Event : (str "Event").length = 5 := by decide

/-- A tag longer than five bytes that ends in `Event` loses exactly that suffix. -/
theorem fallback_strips (s : Bytes) (hs : s ≠ []) :
    (if ((s ++ str "Event").length : Int) > 5 then
        (sliceFrom (s ++ str "Event") (((s ++ str "Event").length : Int) - 5)).bind fun suffix =>
          if suffix = str "Event" then sliceTo (s ++ str "Event")
            (((s ++ str "Event").length : Int) - 5)
          else some (s ++ str "Event")
      else some (s ++ str "Event")) = some s := by
  have hpos : 0 < s.length := List.length_pos.mpr hs
  have hlen : ((s ++ str "Event").length : Int) - 5 = (s.length : Int) := by
    rw [List.length_append, length_str_Event]; push_cast; ring
  have hgt : ((s ++ str "Event").length : Int) > 5 := by
    rw [List.length_append, length_str_Event]; push_cast; omega
  rw [if_pos hgt, hlen]
  have hle : (0 : Int) ≤ s.length ∧ (s.length : Int) ≤ ((s ++ str "Event").length : Int) := by
    rw [List.length_append]; push_cast; omega
  simp only [sliceFrom, sliceTo, if_pos hle, Int.toNat_ofNat, List.drop_left, Option.some_bind,
    if_true, List.take_left]

/-- A tag of at most five bytes is displayed as it is. -/
theorem fallback_short (t : Bytes) (ht : t.length ≤ 5) :
    (if (t.length : Int) > 5 then
        (sliceFrom t ((t.length : Int) - 5)).bind fun suffix =>
          if suffix = str "Event" then sliceTo t ((t.length : Int) - 5) else some t
      else some t) = some t := by
  have : ¬ (t.length : Int) > 5 := by omega
  rw [if_neg this]

/-- A tag that does not end in `Event` is displayed as it is. -/
theorem fallback_keeps (t : Bytes) (ht : ¬ str "Event" <:+ t) :
    (if (t.length : Int) > 5 then
        (sliceFrom t ((t.length : Int) - 5)).bind fun suffix =>
          if suffix = str "Event" then sliceTo t ((t.length : Int) - 5) else some t
      else some t) = some t := by
  by_cases hgt : (t.length : Int) > 5
  · rw [if_pos hgt]
    have hle : (0 : Int) ≤ (t.length : Int) - 5 ∧ (t.length : Int) - 5 ≤ (t.length : Int) := by
      omega
    have hne : ¬ List.drop ((t.length : Int) - 5).toNat t = str "Event" := by
      intro hd
      exact ht (hd ▸ List.drop_suffix _ t)
    simp only [sliceFrom, if_pos hle, Option.some_bind, if_neg hne]
  · rw [if_neg hgt]

/-- The width reported by `DecodeRuneInString` never exceeds the length of the string. -/
theorem decode_size_le (s : Bytes) : (DecodeRuneInString s).2 ≤ s.length := by
  match s with
  | [] => simp [DecodeRuneInString]
  | a :: rest =>
    rw [DecodeRuneInString]
    by_cases h1 : a < 0x80
    · rw [if_pos h1]; simp
    rw [if_neg h1]
    by_cases h2 : a < 0xC2 ∨ 0xF4 < a
    · rw [if_pos h2]; simp
    rw [if_neg h2]
    have hsz : (if a < 0xE0 then 2 else if a < 0xF0 then 3 else 4) = 2 ∨
        (if a < 0xE0 then 2 else if a < 0xF0 then 3 else 4) = 3 ∨
        (if a < 0xE0 then 2 else if a < 0xF0 then 3 else 4) = 4 := by
      split_ifs <;> omega
    generalize (if a < 0xE0 then 2 else if a < 0xF0 then 3 else 4) = sz at hsz
    generalize acceptRange a = accept
    simp only []
    by_cases h3 : (a :: rest).length < sz
    · rw [if_pos h3]; simp
    rw [if_neg h3]
    simp only [List.length_cons] at h3
    rcases hsz with rfl | rfl | rfl
    · match rest with
      | [] => simp
      | b :: rest1 => simp only []; split_ifs <;> first | omega | simp
    · match rest with
      | [] => simp
      | [b] => simp at h3
      | b :: c :: rest2 => simp only []; split_ifs <;> first | omega | simp
    · match rest with
      | [] => simp
      | [b] => simp at h3
      | [b, c] => simp at h3
      | b :: c :: d :: rest3 => simp only []; split_ifs <;> first | omega | simp


/-- Decoding the encoding of a scalar value gives the value and the width of
its encoding, whatever follows. -/
theorem decode_encode (c : Nat) (hc : validRune c) (t : Bytes) :
    DecodeRuneInString (encodeRune c ++ t) = (c, (encodeRune c).length) := by
  obtain ⟨hmax, hsur⟩ := hc
  by_cases h1 : c ≤ 0x7F
  · have h1' : c < 0x80 := by omega
    simp [encodeRune, h1, DecodeRuneInString, h1']
  · by_cases h2 : c ≤ 0x7FF
    · have e : encodeRune c = [0xC0 + c / 64, 0x80 + c % 64] := by
        simp [encodeRune, h1, h2]
      rw [e]
      have a1 : ¬ 0xC0 + c / 64 < 0x80 := by omega
      have a2 : ¬ (0xC0 + c / 64 < 0xC2 ∨ 0xF4 < 0xC0 + c / 64) := by omega
      have a3 : 0xC0 + c / 64 < 0xE0 := by omega
      have a4 : acceptRange (0xC0 + c / 64) = (0x80, 0xBF) := by
        unfold acceptRange
        rw [if_neg (by omega), if_neg (by omega), if_neg (by omega), if_neg (by omega)]
      simp only [List.cons_append, List.nil_append, DecodeRuneInString, if_neg a1, if_neg a2,
        if_pos a3, a4, List.length_cons]
      rw [if_neg (by omega), if_neg (by omega)]
      simp only [le_refl, if_true, List.length_nil, Prod.mk.injEq, and_true]
      omega
    · by_cases h3 : c ≤ 0xFFFF
      · have e : encodeRune c = [0xE0 + c / 4096, 0x80 + c / 64 % 64, 0x80 + c % 64] := by
          have hs : ¬ (0x10FFFF < c ∨ (0xD800 ≤ c ∧ c ≤ 0xDFFF)) := by omega
          simp only [encodeRune, if_neg h1, if_neg h2, if_neg hs, if_pos h3]
        rw [e]
        have a1 : ¬ 0xE0 + c / 4096 < 0x80 := by omega
        have a2 : ¬ (0xE0 + c / 4096 < 0xC2 ∨ 0xF4 < 0xE0 + c / 4096) := by omega
        have a3 : ¬ 0xE0 + c / 4096 < 0xE0 := by omega
        have a3' : 0xE0 + c / 4096 < 0xF0 := by omega
        have a4 : ¬ (0x80 + c / 64 % 64 < (acceptRange (0xE0 + c / 4096)).1 ∨
            (acceptRange (0xE0 + c / 4096)).2 < 0x80 + c / 64 % 64) := by
          unfold acceptRange
          split_ifs <;> simp only [] <;> omega
        simp only [List.cons_append, List.nil_append, DecodeRuneInString, if_neg a1, if_neg a2,
          if_neg a3, if_pos a3', if_neg a4, List.length_cons]
        rw [if_neg (by omega), if_neg (by omega), if_neg (by omega)]
        simp only [le_refl, if_true, List.length_nil, Prod.mk.injEq, and_true]
        omega
      · have e : encodeRune c =
            [0xF0 + c / 262144, 0x80 + c / 4096 % 64, 0x80 + c / 64 % 64, 0x80 + c % 64] := by
          have hs : ¬ (0x10FFFF < c ∨ (0xD800 ≤ c ∧ c ≤ 0xDFFF)) := by omega
          simp only [encodeRune, if_neg h1, if_neg h2, if_neg hs, if_neg h3]
        rw [e]
        have a1 : ¬ 0xF0 + c / 262144 < 0x80 := by omega
        have a2 : ¬ (0xF0 + c / 262144 < 0xC2 ∨ 0xF4 < 0xF0 + c / 262144) := by omega
        have a3 : ¬ 0xF0 + c / 262144 < 0xE0 := by omega
        have a3' : ¬ 0xF0 + c / 262144 < 0xF0 := by omega
        have a4 : ¬ (0x80 + c / 4096 % 64 < (acceptRange (0xF0 + c / 262144)).1 ∨
            (acceptRange (0xF0 + c / 262144)).2 < 0x80 + c / 4096 % 64) := by
          unfold acceptRange
          split_ifs <;> simp only [] <;> omega
        simp only [List.cons_append, List.nil_append, DecodeRuneInString, if_neg a1, if_neg a2,
          if_neg a3, if_neg a3', if_neg a4, List.length_cons]
        repeat (rw [if_neg (by omega)])
        simp only [List.length_nil, Prod.mk.injEq, and_true]
        omega

/-- The function `capitalize` never slices out of range. -/
theorem capitalize_total (up : Nat → Nat) (s : Bytes) : ∃ r, capitalize up s = some r := by
  unfold capitalize
  by_cases hs : s = []
  · exact ⟨s, by rw [if_pos hs]⟩
  · rw [if_neg hs]
    have hle := decode_size_le s
    have hb : (0 : Int) ≤ ((DecodeRuneInString s).2 : Int) ∧
        ((DecodeRuneInString s).2 : Int) ≤ (s.length : Int) := by omega
    simp only [sliceFrom, if_pos hb, Option.map_some']
    exact ⟨_, rfl⟩

/-- The default action `updated` is capitalized to `Updated`, whatever the case table. -/
theorem capitalize_updated (up : Nat → Nat) :
    capitalize up (str "updated") = some (str "Updated") := by
  rfl

/-- The slices of the fallback case are always in range. -/
theorem fallback_total (t : Bytes) :
    ∃ name, (if (t.length : Int) > 5 then
        (sliceFrom t ((t.length : Int) - 5)).bind fun suffix =>
          if suffix = str "Event" then sliceTo t ((t.length : Int) - 5) else some t
      else some t) = some name := by
  by_cases hgt : (t.length : Int) > 5
  · rw [if_pos hgt]
    have hle : (0 : Int) ≤ (t.length : Int) - 5 ∧ (t.length : Int) - 5 ≤ (t.length : Int) := by
      omega
    simp only [sliceFrom, sliceTo, if_pos hle, Option.some_bind]
    split_ifs
    · exact ⟨_, rfl⟩
    · exact ⟨_, rfl⟩
  · rw [if_neg hgt]
    exact ⟨_, rfl⟩

/-! ## C1 — the fallback strips a trailing `Event` -/

/-- C1, as stated, fails at the tag `Event`: the tag is unrecognized and is `""`
followed by `Event`, yet `formatEvent` displays it whole, as `📌 Event in …`,
and not as the empty name `📌  in …`. -/
theorem C1_counterexample_tag_Event :
    str "Event" ∉ recognized ∧ ([] : Bytes) ++ str "Event" = (sampleEvent "Event" .absent).Type_ ∧
    formatEvent id (sampleEvent "Event" .absent)
      = some (str "📌 Event in octo/repo (2024-01-02 03:04)") ∧
    formatEvent id (sampleEvent "Event" .absent)
      ≠ some (str "📌 " ++ [] ++ str " in octo/repo (2024-01-02 03:04)") := by
  decide

/-- C1 (amended): for every unrecognized type tag `stripped ++ "Event"`, the line
is `📌 <name> in <repo> (<timestamp>)` where the name is `stripped` when
`stripped` is not empty (the tag is longer than five bytes), and the whole tag
`Event` when it is. -/
theorem C1_fallback_strips_suffix (up : Nat → Nat) (e : Event) (stripped : Bytes)
    (hun : e.Type_ ∉ recognized) (htag : stripped ++ str "Event" = e.Type_) :
    formatEvent up e = some (str "📌 " ++ (if stripped = [] then str "Event" else stripped) ++
      str " in " ++ e.Repo.Name ++ str " (" ++ e.CreatedAt.Format ++ str ")") := by
  rw [formatEvent_unrecognized up e hun, ← htag]
  by_cases hs : stripped = []
  · subst hs
    rw [fallback_short _ (by decide), if_pos rfl]
    rfl
  · rw [fallback_strips stripped hs, if_neg hs]
    rfl

/-- C1 (amended) at the tags `FooBarEvent` and `Event`. -/
theorem C1_fallback_strips_suffix_witness :
    formatEvent id (sampleEvent "FooBarEvent" .absent)
      = some (str "📌 FooBar in octo/repo (2024-01-02 03:04)") ∧
    formatEvent id (sampleEvent "Event" .absent)
      = some (str "📌 Event in octo/repo (2024-01-02 03:04)") :=
  ⟨(C1_fallback_strips_suffix id (sampleEvent "FooBarEvent" .absent) (str "FooBar")
      (by decide) (by decide)).trans (by decide),
   (C1_fallback_strips_suffix id (sampleEvent "Event" .absent) [] (by decide)
      (by decide)).trans (by decide)⟩

/-! ## C2 — the fallback keeps a tag without the suffix -/

/-- C2: for every unrecognized type tag that does not end in `Event` — the empty
tag and tags shorter than five bytes included — the line is exactly
`📌 <tag> in <repo> (<timestamp>)`. -/
theorem C2_fallback_keeps_tag (up : Nat → Nat) (e : Event)
    (hun : e.Type_ ∉ recognized) (hsuffix : ¬ str "Event" <:+ e.Type_) :
    formatEvent up e = some (str "📌 " ++ e.Type_ ++ str " in " ++ e.Repo.Name ++ str " (" ++
      e.CreatedAt.Format ++ str ")") := by
  rw [formatEvent_unrecognized up e hun, fallback_keeps e.Type_ hsuffix]
  rfl

/-- C2 at the empty tag, at a tag of three bytes and at a long tag. -/
theorem C2_fallback_keeps_tag_witness :
    formatEvent id (sampleEvent "" .absent) = some (str "📌  in octo/repo (2024-01-02 03:04)") ∧
    formatEvent id (sampleEvent "Foo" .absent)
      = some (str "📌 Foo in octo/repo (2024-01-02 03:04)") ∧
    formatEvent id (sampleEvent "GollumEvents" .absent)
      = some (str "📌 GollumEvents in octo/repo (2024-01-02 03:04)") :=
  ⟨(C2_fallback_keeps_tag id (sampleEvent "" .absent) (by decide) (by decide)).trans (by decide),
   (C2_fallback_keeps_tag id (sampleEvent "Foo" .absent) (by decide) (by decide)).trans
     (by decide),
   (C2_fallback_keeps_tag id (sampleEvent "GollumEvents" .absent) (by decide)
     (by decide)).trans (by decide)⟩

/-! ## C3 — commits are counted and pluralized -/

/-- C3: for every PushEvent whose payload decodes to `n` commits, the line is
exactly `🔨 Pushed <n> <word> to <repo> (<timestamp>)` with `<n>` in decimal and
the word `commit` when `n = 1` and `commits` otherwise. -/
theorem C3_push_pluralizes (up : Nat → Nat) (e : Event) (n : Nat)
    (htag : e.Type_ = str "PushEvent")
    (hn : (Unmarshal storePush e.Payload ⟨[]⟩).Commits.length = n) :
    formatEvent up e = some (str "🔨 Pushed " ++ decimal n ++ str " " ++
      (if n = 1 then str "commit" else str "commits") ++ str " to " ++ e.Repo.Name ++
      str " (" ++ e.CreatedAt.Format ++ str ")") := by
  rw [formatEvent_push up e htag, hn]
  have hd : formatInt (n : Int) = decimal n := by
    simp [formatInt]
  rw [hd]
  by_cases h1 : n = 1 <;> simp [h1]

/-- C3 at two commits, timestamp 2024-01-02T03:04:05Z and repository `octo/repo`,
and at one commit and at none. -/
theorem C3_push_pluralizes_witness :
    formatEvent id (sampleEvent "PushEvent" (.json (.object [(str "commits", .array
        [.object [(str "message", .string (str "first"))],
         .object [(str "message", .string (str "second"))]])])))
      = some (str "🔨 Pushed 2 commits to octo/repo (2024-01-02 03:04)") ∧
    formatEvent id (sampleEvent "PushEvent" (.json (.object [(str "commits", .array
        [.object [(str "message", .string (str "only"))]])])))
      = some (str "🔨 Pushed 1 commit to octo/repo (2024-01-02 03:04)") ∧
    formatEvent id (sampleEvent "PushEvent" (.json (.object [(str "commits", .array [])])))
      = some (str "🔨 Pushed 0 commits to octo/repo (2024-01-02 03:04)") :=
  ⟨(C3_push_pluralizes id _ 2 (by decide) (by decide)).trans (by decide),
   (C3_push_pluralizes id _ 1 (by decide) (by decide)).trans (by decide),
   (C3_push_pluralizes id _ 0 (by decide) (by decide)).trans (by decide)⟩

/-! ## C4 — defaults for an empty or missing payload field -/

/-- C4: a CreateEvent, DeleteEvent, IssuesEvent or PullRequestEvent whose payload
is absent, is not valid JSON, or decodes with the consulted field empty, is
formatted with the default: `Created repository in`, `Deleted branch in`,
`Updated an issue in`, `Updated a pull request in`, followed by
` <repo> (<timestamp>)`. -/
theorem C4_payload_defaults (up : Nat → Nat) (e : Event) :
    (e.Type_ = str "CreateEvent" →
      (e.Payload = .absent ∨ e.Payload = .malformed ∨
        (Unmarshal storeCreate e.Payload ⟨[]⟩).RefType = []) →
      formatEvent up e = some (str "✨ Created repository in" ++ str " " ++ e.Repo.Name ++
        str " (" ++ e.CreatedAt.Format ++ str ")")) ∧
    (e.Type_ = str "DeleteEvent" →
      (e.Payload = .absent ∨ e.Payload = .malformed ∨
        (Unmarshal storeDelete e.Payload ⟨[]⟩).RefType = []) →
      formatEvent up e = some (str "🗑️  Deleted branch in" ++ str " " ++ e.Repo.Name ++
        str " (" ++ e.CreatedAt.Format ++ str ")")) ∧
    (e.Type_ = str "IssuesEvent" →
      (e.Payload = .absent ∨ e.Payload = .malformed ∨
        (Unmarshal storeIssues e.Payload ⟨[]⟩).Action = []) →
      formatEvent up e = some (str "📝 Updated an issue in" ++ str " " ++ e.Repo.Name ++
        str " (" ++ e.CreatedAt.Format ++ str ")")) ∧
    (e.Type_ = str "PullRequestEvent" →
      (e.Payload = .absent ∨ e.Payload = .malformed ∨
        (Unmarshal storePullRequest e.Payload ⟨[]⟩).Action = []) →
      formatEvent up e = some (str " Updated a pull request in" ++ str " " ++ e.Repo.Name ++
        str " (" ++ e.CreatedAt.Format ++ str ")")) := by
  refine ⟨fun ht hp => ?_, fun ht hp => ?_, fun ht hp => ?_, fun ht hp => ?_⟩
  · have hf : (Unmarshal storeCreate e.Payload ⟨[]⟩).RefType = [] := by
      rcases hp with h | h | h
      · rw [h]; rfl
      · rw [h]; rfl
      · exact h
    rw [formatEvent_create up e ht, if_pos hf]
    rfl
  · have hf : (Unmarshal storeDelete e.Payload ⟨[]⟩).RefType = [] := by
      rcases hp with h | h | h
      · rw [h]; rfl
      · rw [h]; rfl
      · exact h
    rw [formatEvent_delete up e ht, if_pos hf]
    rfl
  · have hf : (Unmarshal storeIssues e.Payload ⟨[]⟩).Action = [] := by
      rcases hp with h | h | h
      · rw [h]; rfl
      · rw [h]; rfl
      · exact h
    rw [formatEvent_issues up e ht, if_pos hf, capitalize_updated]
    rfl
  · have hf : (Unmarshal storePullRequest e.Payload ⟨[]⟩).Action = [] := by
      rcases hp with h | h | h
      · rw [h]; rfl
      · rw [h]; rfl
      · exact h
    rw [formatEvent_pullRequest up e ht, if_pos hf, capitalize_updated]
    rfl

/-- C4 at a CreateEvent whose `ref_type` is the empty string, a DeleteEvent with
a payload that is not JSON, an IssuesEvent without payload and a
PullRequestEvent whose payload has no `action`. -/
theorem C4_payload_defaults_witness :
    formatEvent id (sampleEvent "CreateEvent"
        (.json (.object [(str "ref_type", .string [])])))
      = some (str "✨ Created repository in octo/repo (2024-01-02 03:04)") ∧
    formatEvent id (sampleEvent "DeleteEvent" .malformed)
      = some (str "🗑️  Deleted branch in octo/repo (2024-01-02 03:04)") ∧
    formatEvent id (sampleEvent "IssuesEvent" .absent)
      = some (str "📝 Updated an issue in octo/repo (2024-01-02 03:04)") ∧
    formatEvent id (sampleEvent "PullRequestEvent" (.json (.object [])))
      = some (str " Updated a pull request in octo/repo (2024-01-02 03:04)") :=
  ⟨((C4_payload_defaults id _).1 (by decide) (Or.inr (Or.inr (by decide)))).trans (by decide),
   ((C4_payload_defaults id _).2.1 (by decide) (Or.inr (Or.inl rfl))).trans (by decide),
   ((C4_payload_defaults id _).2.2.1 (by decide) (Or.inl rfl)).trans (by decide),
   ((C4_payload_defaults id _).2.2.2 (by decide) (Or.inr (Or.inr (by decide)))).trans
     (by decide)⟩

/-! ## C5 — `capitalize` -/

/-- C5: `capitalize` changes the first code point only, taken as a whole code
point whatever the width of its encoding: for a string that starts with the
UTF-8 encoding of the scalar value `c` and continues with `t`, the result is the
string of `ToUpper c` followed by `t` unchanged; and the empty string is
returned as it is. -/
theorem C5_capitalize_first_codepoint (up : Nat → Nat) (c : Nat) (t : Bytes)
    (hc : validRune c) :
    capitalize up (encodeRune c ++ t) = some (encodeRune (ToUpper up c) ++ t) ∧
    capitalize up [] = some [] := by
  refine ⟨?_, rfl⟩
  have hne : encodeRune c ++ t ≠ [] := by
    have hlen : 0 < (encodeRune c).length := by
      unfold encodeRune
      split_ifs <;> simp
    intro h
    have := congrArg List.length h
    simp only [List.length_append, List.length_nil] at this
    omega
  unfold capitalize
  rw [if_neg hne, decode_encode c hc t]
  have hb : (0 : Int) ≤ ((encodeRune c).length : Int) ∧
      ((encodeRune c).length : Int) ≤ ((encodeRune c ++ t).length : Int) := by
    rw [List.length_append]; push_cast; omega
  simp only [sliceFrom, if_pos hb, Int.toNat_ofNat, List.drop_left, Option.map_some']

/-- C5 at `élan`, whose first code point U+00E9 takes two bytes, at the ASCII
word `opened`, and at a word whose first code point takes four bytes. -/
theorem C5_capitalize_first_codepoint_witness :
    capitalize sampleUpper (str "élan") = some (str "Élan") ∧
    capitalize sampleUpper (str "opened") = some (str "Opened") ∧
    capitalize sampleUpper (str "🔨x") = some (str "🔨x") ∧
    capitalize sampleUpper [] = some [] :=
  ⟨((C5_capitalize_first_codepoint sampleUpper 0xE9 (str "lan") (by decide)).1).trans
     (by decide),
   ((C5_capitalize_first_codepoint sampleUpper 0x6F (str "pened") (by decide)).1).trans
     (by decide),
   ((C5_capitalize_first_codepoint sampleUpper 0x1F528 (str "x") (by decide)).1).trans
     (by decide),
   (C5_capitalize_first_codepoint sampleUpper 0 [] (by decide)).2⟩

/-! ## C6 — `formatEvent` is total -/

/-- C6: `formatEvent` returns a line for every event — any type tag, any
payload — and never slices a string out of range. -/
theorem C6_formatEvent_total (up : Nat → Nat) (e : Event) :
    ∃ line, formatEvent up e = some line := by
  by_cases hrec : e.Type_ ∈ recognized
  · simp only [recognized, List.mem_cons, List.mem_singleton, List.not_mem_nil, or_false]
      at hrec
    rcases hrec with h | h | h | h | h | h | h | h | h | h | h | h
    · exact ⟨_, formatEvent_push up e h⟩
    · exact ⟨_, formatEvent_create up e h⟩
    · exact ⟨_, formatEvent_delete up e h⟩
    · obtain ⟨r, hr⟩ := capitalize_total up
        (if (Unmarshal storeIssues e.Payload ⟨[]⟩).Action = [] then str "updated"
          else (Unmarshal storeIssues e.Payload ⟨[]⟩).Action)
      rw [formatEvent_issues up e h, hr]
      exact ⟨_, rfl⟩
    · exact ⟨_, formatEvent_issueComment up e h⟩
    · exact ⟨_, formatEvent_watch up e h⟩
    · exact ⟨_, formatEvent_fork up e h⟩
    · obtain ⟨r, hr⟩ := capitalize_total up
        (if (Unmarshal storePullRequest e.Payload ⟨[]⟩).Action = [] then str "updated"
          else (Unmarshal storePullRequest e.Payload ⟨[]⟩).Action)
      rw [formatEvent_pullRequest up e h, hr]
      exact ⟨_, rfl⟩
    · exact ⟨_, formatEvent_review up e h⟩
    · exact ⟨_, formatEvent_reviewComment up e h⟩
    · exact ⟨_, formatEvent_release up e h⟩
    · exact ⟨_, formatEvent_member up e h⟩
  · obtain ⟨name, hname⟩ := fallback_total e.Type_
    rw [formatEvent_unrecognized up e hrec, hname]
    exact ⟨_, rfl⟩

/-! ## C7 — glyphs -/

/-- C7 fails on the code: the lines of PullRequestEvent, PullRequestReviewEvent,
PullRequestReviewCommentEvent, ReleaseEvent and MemberEvent start with a space,
so the text before their first space is empty, and the same for all five. -/
theorem C7_blank_glyphs :
    formatEvent id (sampleEvent "ReleaseEvent" .absent)
      = some (str " Published a release in octo/repo (2024-01-02 03:04)") ∧
    formatEvent id (sampleEvent "MemberEvent" .absent)
      = some (str " Added a collaborator to octo/repo (2024-01-02 03:04)") ∧
    (formatEvent id (sampleEvent "ReleaseEvent" .absent)).map glyph = some [] ∧
    (formatEvent id (sampleEvent "MemberEvent" .absent)).map glyph = some [] ∧
    (formatEvent id (sampleEvent "PullRequestEvent" .absent)).map glyph = some [] ∧
    (formatEvent id (sampleEvent "PullRequestReviewEvent" .absent)).map glyph = some [] ∧
    (formatEvent id (sampleEvent "PullRequestReviewCommentEvent" .absent)).map glyph = some [] ∧
    (formatEvent id (sampleEvent "WatchEvent" .absent)).map glyph = some (str "⭐") := by
  decide

/-! ## C8 — mismatched payloads -/

/-- A member whose value is not a string leaves a string field as it is. -/
theorem storeString_of_not_string (cur : Bytes) (v : JValue) (h : v.isString = false) :
    storeString cur v = cur := by
  cases v <;> simp_all [storeString, JValue.isString]

/-- A value that is not an array leaves an empty slice of commits empty. -/
theorem storeCommits_of_not_array (v : JValue) (h : v.isArray = false) :
    storeCommits [] v = [] := by
  cases v <;> simp_all [storeCommits, JValue.isArray]

theorem foldl_string_mismatch (name : Bytes) (members : List (Bytes × JValue)) (cur : Bytes)
    (h : (members.all fun kv => !(keyMatches name kv.1 && JValue.isString kv.2)) = true) :
    members.foldl (fun acc kv => if keyMatches name kv.1 then storeString acc kv.2 else acc) cur
      = cur := by
  induction members generalizing cur with
  | nil => rfl
  | cons kv rest ih =>
    simp only [List.all_cons, Bool.and_eq_true, Bool.not_eq_true', Bool.and_eq_false_iff] at h
    obtain ⟨hkv, hrest⟩ := h
    rw [List.foldl_cons]
    have hstep : (if keyMatches name kv.1 = true then storeString cur kv.2 else cur) = cur := by
      by_cases hk : keyMatches name kv.1 = true
      · rw [if_pos hk]
        rcases hkv with hno | hty
        · rw [hk] at hno; exact absurd hno (by decide)
        · exact storeString_of_not_string cur kv.2 hty
      · rw [if_neg hk]
    rw [hstep]
    exact ih cur hrest

theorem foldl_commits_mismatch (members : List (Bytes × JValue))
    (h : (members.all fun kv => !(keyMatches (str "commits") kv.1 && JValue.isArray kv.2))
      = true) :
    members.foldl
      (fun (acc : PushPayload) kv =>
        if keyMatches (str "commits") kv.1 then ⟨storeCommits acc.Commits kv.2⟩ else acc)
      ⟨[]⟩ = ⟨[]⟩ := by
  induction members with
  | nil => rfl
  | cons kv rest ih =>
    simp only [List.all_cons, Bool.and_eq_true, Bool.not_eq_true', Bool.and_eq_false_iff] at h
    obtain ⟨hkv, hrest⟩ := h
    rw [List.foldl_cons]
    have hstep : (if keyMatches (str "commits") kv.1 = true
        then (⟨storeCommits (PushPayload.mk []).Commits kv.2⟩ : PushPayload)
        else ⟨[]⟩) = ⟨[]⟩ := by
      by_cases hk : keyMatches (str "commits") kv.1 = true
      · rw [if_pos hk]
        rcases hkv with hno | hty
        · rw [hk] at hno; exact absurd hno (by decide)
        · rw [storeCommits_of_not_array kv.2 hty]
      · rw [if_neg hk]
    rw [hstep]
    exact ih hrest

/-- A payload that is mismatched for a string field stores nothing into it. -/
theorem storeStringField_mismatched (name : Bytes) (p : RawMessage)
    (h : mismatched name JValue.isString p = true) :
    Unmarshal (storeStringField name) p [] = [] := by
  cases p with
  | absent => rfl
  | malformed => rfl
  | json v =>
    cases v with
    | object members => exact foldl_string_mismatch name members [] h
    | _ => rfl

/-- A payload that is mismatched for `commits` stores no commit. -/
theorem storePush_mismatched (p : RawMessage)
    (h : mismatched (str "commits") JValue.isArray p = true) :
    Unmarshal storePush p ⟨[]⟩ = ⟨[]⟩ := by
  cases p with
  | absent => rfl
  | malformed => rfl
  | json v =>
    cases v with
    | object members => exact foldl_commits_mismatch members h
    | _ => rfl

theorem unmarshal_create_field (p : RawMessage) :
    (Unmarshal storeCreate p ⟨[]⟩).RefType = Unmarshal (storeStringField (str "ref_type")) p [] := by
  cases p <;> rfl

theorem unmarshal_delete_field (p : RawMessage) :
    (Unmarshal storeDelete p ⟨[]⟩).RefType = Unmarshal (storeStringField (str "ref_type")) p [] := by
  cases p <;> rfl

theorem unmarshal_issues_field (p : RawMessage) :
    (Unmarshal storeIssues p ⟨[]⟩).Action = Unmarshal (storeStringField (str "action")) p [] := by
  cases p <;> rfl

theorem unmarshal_pullRequest_field (p : RawMessage) :
    (Unmarshal storePullRequest p ⟨[]⟩).Action
      = Unmarshal (storeStringField (str "action")) p [] := by
  cases p <;> rfl

/-- C8, as stated, fails at a PushEvent whose `commits` is an array of numbers:
the elements are not objects, yet each of them extends the slice, so the line
counts two commits, while the same event without payload counts none. -/
theorem C8_counterexample_commits_of_numbers :
    formatEvent id (sampleEvent "PushEvent"
        (.json (.object [(str "commits", .array [.number (str "1"), .number (str "2")])])))
      = some (str "🔨 Pushed 2 commits to octo/repo (2024-01-02 03:04)") ∧
    formatEvent id (sampleEvent "PushEvent" .absent)
      = some (str "🔨 Pushed 0 commits to octo/repo (2024-01-02 03:04)") ∧
    formatEvent id (sampleEvent "PushEvent"
        (.json (.object [(str "commits", .array [.number (str "1"), .number (str "2")])])))
      ≠ formatEvent id (sampleEvent "PushEvent" .absent) := by
  decide

/-- C8 (amended): for PushEvent, CreateEvent, DeleteEvent, IssuesEvent and
PullRequestEvent, a payload that is not valid JSON, or is not a JSON object, or
is an object whose members for the consulted field all have the wrong JSON type
— anything but a string for `ref_type` and `action`, anything but an array for
`commits` — gives the same line as the same event with no payload. -/
theorem C8_mismatch_as_absent (up : Nat → Nat) (e : Event) :
    (e.Type_ = str "PushEvent" → mismatched (str "commits") JValue.isArray e.Payload = true →
      formatEvent up e = formatEvent up { e with Payload := .absent }) ∧
    (e.Type_ = str "CreateEvent" ∨ e.Type_ = str "DeleteEvent" →
      mismatched (str "ref_type") JValue.isString e.Payload = true →
      formatEvent up e = formatEvent up { e with Payload := .absent }) ∧
    (e.Type_ = str "IssuesEvent" ∨ e.Type_ = str "PullRequestEvent" →
      mismatched (str "action") JValue.isString e.Payload = true →
      formatEvent up e = formatEvent up { e with Payload := .absent }) := by
  refine ⟨fun ht hm => ?_, fun ht hm => ?_, fun ht hm => ?_⟩
  · rw [formatEvent_push up e ht, formatEvent_push up { e with Payload := .absent } ht,
      storePush_mismatched e.Payload hm]
    rfl
  · rcases ht with ht | ht
    · rw [formatEvent_create up e ht, formatEvent_create up { e with Payload := .absent } ht,
        unmarshal_create_field, storeStringField_mismatched _ e.Payload hm]
      rfl
    · rw [formatEvent_delete up e ht, formatEvent_delete up { e with Payload := .absent } ht,
        unmarshal_delete_field, storeStringField_mismatched _ e.Payload hm]
      rfl
  · rcases ht with ht | ht
    · rw [formatEvent_issues up e ht, formatEvent_issues up { e with Payload := .absent } ht,
        unmarshal_issues_field, storeStringField_mismatched _ e.Payload hm]
      rfl
    · rw [formatEvent_pullRequest up e ht,
        formatEvent_pullRequest up { e with Payload := .absent } ht,
        unmarshal_pullRequest_field, storeStringField_mismatched _ e.Payload hm]
      rfl

/-- C8 (amended) at a PushEvent whose `commits` is a string, a CreateEvent whose
`ref_type` is a number and an IssuesEvent whose payload is not JSON. -/
theorem C8_mismatch_as_absent_witness :
    formatEvent id (sampleEvent "PushEvent"
        (.json (.object [(str "commits", .string (str "none"))])))
      = formatEvent id (sampleEvent "PushEvent" .absent) ∧
    formatEvent id (sampleEvent "CreateEvent"
        (.json (.object [(str "ref_type", .number (str "5"))])))
      = formatEvent id (sampleEvent "CreateEvent" .absent) ∧
    formatEvent id (sampleEvent "IssuesEvent" .malformed)
      = formatEvent id (sampleEvent "IssuesEvent" .absent) :=
  ⟨(C8_mismatch_as_absent id _).1 (by decide) (by decide),
   (C8_mismatch_as_absent id _).2.1 (Or.inl (by decide)) (by decide),
   (C8_mismatch_as_absent id _).2.2 (Or.inl (by decide)) (by decide)⟩

/-! ## C9 — classification of the response status -/

/-- C9: once the request is built and answered, the status decides before the
body is looked at.  Status 404 ends the call with the error
`user '<username>' not found`, which contains the user name and is not the
status-code error; every status other than 404 and 200 ends it with
`GitHub API returned status code: <code>`, which contains the code in decimal;
and the call returns without error only for status 200. -/
theorem C9_status_classified (up : Nat → Nat) (w : World) (username : Bytes)
    (req : Request) (resp : Response)
    (hreq : w.NewRequest (str "GET")
      (str "https://api.github.com/users/" ++ username ++ str "/events") = .ok req)
    (hdo : w.Do (req.SetHeader (str "User-Agent") (str "github-activity-fetcher")) = .ok resp) :
    (resp.StatusCode = 404 →
      (fetchUserActivity up w username).result
        = .error (str "user '" ++ username ++ str "' not found") ∧
      username <:+: str "user '" ++ username ++ str "' not found" ∧
      str "user '" ++ username ++ str "' not found"
        ≠ str "GitHub API returned status code: " ++ formatInt resp.StatusCode) ∧
    (resp.StatusCode ≠ 404 → resp.StatusCode ≠ 200 →
      (fetchUserActivity up w username).result
        = .error (str "GitHub API returned status code: " ++ formatInt resp.StatusCode) ∧
      formatInt resp.StatusCode
        <:+: str "GitHub API returned status code: " ++ formatInt resp.StatusCode) ∧
    ((fetchUserActivity up w username).result = .ok → resp.StatusCode = 200) := by
  refine ⟨fun h404 => ⟨?_, ⟨str "user '", str "' not found", rfl⟩, ?_⟩,
    fun h404 h200 => ⟨?_, ⟨str "GitHub API returned status code: ", [], by simp⟩⟩,
    fun hok => ?_⟩
  · simp only [fetchUserActivity, hreq, hdo, if_pos h404]
  · intro h
    have h2 : some 117 = some 71 := congrArg List.head? h
    exact absurd h2 (by decide)
  · simp only [fetchUserActivity, hreq, hdo, if_neg h404, if_pos h200]
  · by_contra h200
    by_cases h404 : resp.StatusCode = 404
    · simp only [fetchUserActivity, hreq, hdo, if_pos h404] at hok
      exact Result.noConfusion hok
    · simp only [fetchUserActivity, hreq, hdo, if_neg h404, if_pos h200] at hok
      exact Result.noConfusion hok

/-- C9 at the statuses 404, 500, 204 and 301 for the user `torvalds`. -/
theorem C9_status_classified_witness :
    (fetchUserActivity id (sampleWorld 404 (.ok (str "[]"))) (str "torvalds")).result
      = .error (str "user 'torvalds' not found") ∧
    (fetchUserActivity id (sampleWorld 500 (.ok (str "[]"))) (str "torvalds")).result
      = .error (str "GitHub API returned status code: 500") ∧
    (fetchUserActivity id (sampleWorld 204 (.ok (str "[]"))) (str "torvalds")).result
      = .error (str "GitHub API returned status code: 204") ∧
    (fetchUserActivity id (sampleWorld 301 (.ok (str "[]"))) (str "torvalds")).result
      = .error (str "GitHub API returned status code: 301") :=
  ⟨((C9_status_classified id (sampleWorld 404 (.ok (str "[]"))) (str "torvalds") _ _ rfl rfl).1
      rfl).1.trans (congrArg Result.error (by decide)),
   ((C9_status_classified id (sampleWorld 500 (.ok (str "[]"))) (str "torvalds") _ _ rfl rfl).2.1
      (by decide) (by decide)).1.trans (congrArg Result.error (by decide)),
   ((C9_status_classified id (sampleWorld 204 (.ok (str "[]"))) (str "torvalds") _ _ rfl rfl).2.1
      (by decide) (by decide)).1.trans (congrArg Result.error (by decide)),
   ((C9_status_classified id (sampleWorld 301 (.ok (str "[]"))) (str "torvalds") _ _ rfl rfl).2.1
      (by decide) (by decide)).1.trans (congrArg Result.error (by decide))⟩

/-! ## C10 — a response without events -/

/-- C10: for a 200 response whose body decodes to an empty list of events, the
call returns without error, and standard output holds the line printed before
the request followed by the single line
`No recent activity found for this user.` — no header, no divider, no event line. -/
theorem C10_no_activity (up : Nat → Nat) (w : World) (username : Bytes)
    (req : Request) (resp : Response) (body : Bytes)
    (hreq : w.NewRequest (str "GET")
      (str "https://api.github.com/users/" ++ username ++ str "/events") = .ok req)
    (hdo : w.Do (req.SetHeader (str "User-Agent") (str "github-activity-fetcher")) = .ok resp)
    (hstatus : resp.StatusCode = 200) (hbody : resp.Body = .ok body)
    (hdecode : w.UnmarshalEvents body = .ok []) :
    (fetchUserActivity up w username).result = .ok ∧
    (fetchUserActivity up w username).stdout
      = str "Fetching activity for GitHub user: " ++ username ++ str "\n\n" ++
        str "No recent activity found for this user.\n" := by
  have h404 : ¬ resp.StatusCode = 404 := by rw [hstatus]; decide
  have h200 : ¬ resp.StatusCode ≠ 200 := by rw [hstatus]; decide
  simp only [fetchUserActivity, hreq, hdo, if_neg h404, if_neg h200, hbody, hdecode,
    List.length_nil, if_true, and_self]

/-- C10 at a 200 response with body `[]` for the user `torvalds`. -/
theorem C10_no_activity_witness :
    (fetchUserActivity id (sampleWorld 200 (.ok (str "[]"))) (str "torvalds")).result = .ok ∧
    (fetchUserActivity id (sampleWorld 200 (.ok (str "[]"))) (str "torvalds")).stdout
      = str "Fetching activity for GitHub user: torvalds\n\nNo recent activity found for this user.\n" :=
  ⟨(C10_no_activity id (sampleWorld 200 (.ok (str "[]"))) (str "torvalds") _ _ (str "[]")
      rfl rfl rfl rfl (by simp [sampleWorld])).1,
   (C10_no_activity id (sampleWorld 200 (.ok (str "[]"))) (str "torvalds") _ _ (str "[]")
      rfl rfl rfl rfl (by simp [sampleWorld])).2.trans (by decide)⟩

/-! ## Shared facts for the later properties -/

/-- The formatter returns a line for every event. -/
theorem formatEvent_returns (up : Nat → Nat) (e : Event) :
    ∃ line, formatEvent up e = some line := by
  by_cases hrec : e.Type_ ∈ recognized
  · simp only [recognized, List.mem_cons, List.mem_singleton, List.not_mem_nil, or_false]
      at hrec
    rcases hrec with h | h | h | h | h | h | h | h | h | h | h | h
    · exact ⟨_, formatEvent_push up e h⟩
    · exact ⟨_, formatEvent_create up e h⟩
    · exact ⟨_, formatEvent_delete up e h⟩
    · obtain ⟨r, hr⟩ := capitalize_total up
        (if (Unmarshal storeIssues e.Payload ⟨[]⟩).Action = [] then str "updated"
          else (Unmarshal storeIssues e.Payload ⟨[]⟩).Action)
      rw [formatEvent_issues up e h, hr]
      exact ⟨_, rfl⟩
    · exact ⟨_, formatEvent_issueComment up e h⟩
    · exact ⟨_, formatEvent_watch up e h⟩
    · exact ⟨_, formatEvent_fork up e h⟩
    · obtain ⟨r, hr⟩ := capitalize_total up
        (if (Unmarshal storePullRequest e.Payload ⟨[]⟩).Action = [] then str "updated"
          else (Unmarshal storePullRequest e.Payload ⟨[]⟩).Action)
      rw [formatEvent_pullRequest up e h, hr]
      exact ⟨_, rfl⟩
    · exact ⟨_, formatEvent_review up e h⟩
    · exact ⟨_, formatEvent_reviewComment up e h⟩
    · exact ⟨_, formatEvent_release up e h⟩
    · exact ⟨_, formatEvent_member up e h⟩
  · obtain ⟨name, hname⟩ := fallback_total e.Type_
    rw [formatEvent_unrecognized up e hrec, hname]
    exact ⟨_, rfl⟩

/-- Every list of events has its list of lines. -/
theorem formatEvent_lines (up : Nat → Nat) (es : List Event) :
    ∃ lines : List Bytes, es.map (formatEvent up) = lines.map some := by
  induction es with
  | nil => exact ⟨[], rfl⟩
  | cons e rest ih =>
    obtain ⟨lines, hl⟩ := ih
    obtain ⟨line, hline⟩ := formatEvent_returns up e
    exact ⟨line :: lines, by rw [List.map_cons, List.map_cons, hline, hl]⟩

/-- The loop prints the lines of the events one after the other and ends normally. -/
theorem printEvents_ok (up : Nat → Nat) (es : List Event) (lines : List Bytes) (out : Bytes)
    (h : es.map (formatEvent up) = lines.map some) :
    printEvents up es out = ⟨out ++ printlnAll lines, .ok⟩ := by
  induction es generalizing lines out with
  | nil =>
    cases lines with
    | nil => simp [printEvents, printlnAll]
    | cons l ls => simp at h
  | cons e rest ih =>
    cases lines with
    | nil => simp at h
    | cons l ls =>
      simp only [List.map_cons, List.cons.injEq] at h
      obtain ⟨hl, hrest⟩ := h
      rw [printEvents, hl]
      simp only []
      rw [ih ls (out ++ l ++ str "\n") hrest]
      simp [printlnAll, List.append_assoc]

/-- A run of the fetcher that ends with an error has printed the request line only. -/
theorem fetch_error_stdout (up : Nat → Nat) (w : World) (username msg : Bytes)
    (h : (fetchUserActivity up w username).result = .error msg) :
    (fetchUserActivity up w username).stdout = requestLine username := by
  cases hreq : w.NewRequest (str "GET")
      (str "https://api.github.com/users/" ++ username ++ str "/events") with
  | error err => simp only [fetchUserActivity, hreq, requestLine]
  | ok req =>
    cases hdo : w.Do (req.SetHeader (str "User-Agent") (str "github-activity-fetcher")) with
    | error err => simp only [fetchUserActivity, hreq, hdo, requestLine]
    | ok resp =>
      by_cases h404 : resp.StatusCode = 404
      · simp only [fetchUserActivity, hreq, hdo, if_pos h404, requestLine]
      by_cases h200 : resp.StatusCode ≠ 200
      · simp only [fetchUserActivity, hreq, hdo, if_neg h404, if_pos h200, requestLine]
      cases hbody : resp.Body with
      | error err =>
        simp only [fetchUserActivity, hreq, hdo, if_neg h404, if_neg h200, hbody, requestLine]
      | ok body =>
        cases hdec : w.UnmarshalEvents body with
        | error err =>
          simp only [fetchUserActivity, hreq, hdo, if_neg h404, if_neg h200, hbody, hdec,
            requestLine]
        | ok events =>
          exfalso
          simp only [fetchUserActivity, hreq, hdo, if_neg h404, if_neg h200, hbody, hdec] at h
          obtain ⟨lines, hl⟩ := formatEvent_lines up events
          rw [printEvents_ok up events lines _ hl] at h
          split_ifs at h

/-! ## C11 — one line per event, in response order -/

/-- C11: for a 200 response whose body decodes to a non-empty list of events,
the call returns without error and standard output is the request line, the
header line, the divider line and then the lines that `formatEvent` gives for
the events — one per event, in the order of the list, none skipped, each
followed by a line feed. -/
theorem C11_lines_in_response_order (up : Nat → Nat) (w : World) (username : Bytes)
    (req : Request) (resp : Response) (body : Bytes) (es : List Event)
    (hreq : w.NewRequest (str "GET")
      (str "https://api.github.com/users/" ++ username ++ str "/events") = .ok req)
    (hdo : w.Do (req.SetHeader (str "User-Agent") (str "github-activity-fetcher")) = .ok resp)
    (hstatus : resp.StatusCode = 200) (hbody : resp.Body = .ok body)
    (hdecode : w.UnmarshalEvents body = .ok es) (hne : es ≠ []) :
    ∃ lines : List Bytes, es.map (formatEvent up) = lines.map some ∧
      (fetchUserActivity up w username).result = .ok ∧
      (fetchUserActivity up w username).stdout
        = requestLine username ++ (str "Recent activity for " ++ username ++ str ":\n") ++
          str "━━━━━━━━━━━━━━━━━━━━━━━━━━━━━━━━━━━━━━━━━━━━━━\n" ++ printlnAll lines := by
  obtain ⟨lines, hl⟩ := formatEvent_lines up es
  refine ⟨lines, hl, ?_⟩
  have h404 : ¬ resp.StatusCode = 404 := by rw [hstatus]; decide
  have h200 : ¬ resp.StatusCode ≠ 200 := by rw [hstatus]; decide
  have hlen : ¬ es.length = 0 := by
    intro h0
    exact hne (List.length_eq_zero.mp h0)
  simp only [fetchUserActivity, hreq, hdo, if_neg h404, if_neg h200, hbody, hdecode,
    if_neg hlen, printEvents_ok up es lines _ hl, requestLine, and_self]

set_option maxRecDepth 20000 in
/-- C11 at a response of three events, the second with a payload that is not
JSON: all three are reported, in order. -/
theorem C11_lines_in_response_order_witness :
    (∃ lines : List Bytes,
      [sampleEvent "WatchEvent" .absent, sampleEvent "CreateEvent" .malformed,
        sampleEvent "ForkEvent" .absent].map (formatEvent id) = lines.map some ∧
      (fetchUserActivity id
        (worldOf none (.ok ⟨200, .ok (str "[…]")⟩)
          (.ok [sampleEvent "WatchEvent" .absent, sampleEvent "CreateEvent" .malformed,
            sampleEvent "ForkEvent" .absent]))
        (str "torvalds")).result = .ok ∧
      (fetchUserActivity id
        (worldOf none (.ok ⟨200, .ok (str "[…]")⟩)
          (.ok [sampleEvent "WatchEvent" .absent, sampleEvent "CreateEvent" .malformed,
            sampleEvent "ForkEvent" .absent]))
        (str "torvalds")).stdout
        = requestLine (str "torvalds") ++
          (str "Recent activity for " ++ str "torvalds" ++ str ":\n") ++
          str "━━━━━━━━━━━━━━━━━━━━━━━━━━━━━━━━━━━━━━━━━━━━━━\n" ++ printlnAll lines) ∧
    (fetchUserActivity id
        (worldOf none (.ok ⟨200, .ok (str "[…]")⟩)
          (.ok [sampleEvent "WatchEvent" .absent, sampleEvent "CreateEvent" .malformed,
            sampleEvent "ForkEvent" .absent]))
        (str "torvalds")).stdout
      = str "Fetching activity for GitHub user: torvalds\n\nRecent activity for torvalds:\n" ++
        str "━━━━━━━━━━━━━━━━━━━━━━━━━━━━━━━━━━━━━━━━━━━━━━\n" ++
        str "⭐ Starred octo/repo (2024-01-02 03:04)\n" ++
        str "✨ Created repository in octo/repo (2024-01-02 03:04)\n" ++
        str "🍴 Forked octo/repo (2024-01-02 03:04)\n" :=
  ⟨C11_lines_in_response_order id _ (str "torvalds") _ _ (str "[…]") _ rfl rfl rfl rfl rfl
      (by simp),
   by decide⟩

/-! ## C12 — no partial output on failure -/

/-- C12: every failing run of the fetcher returns an error and leaves on
standard output the request line only.  A request that cannot be built, a
transport failure, a status other than 200 (404 included), a body that cannot
be read and a body that does not decode each end the call with an error; a call
that ends with an error has printed nothing but the request line; and `main`
then writes `Error: <message>` to standard error, nothing more to standard
output, and exits with status 1. -/
theorem C12_no_partial_output (up : Nat → Nat) (w : World) (username : Bytes) :
    (∀ err, w.NewRequest (str "GET")
        (str "https://api.github.com/users/" ++ username ++ str "/events") = .error err →
      (fetchUserActivity up w username).result
        = .error (str "error creating request: " ++ err)) ∧
    (∀ req, w.NewRequest (str "GET")
        (str "https://api.github.com/users/" ++ username ++ str "/events") = .ok req →
      (∀ err, w.Do (req.SetHeader (str "User-Agent") (str "github-activity-fetcher"))
          = .error err →
        (fetchUserActivity up w username).result
          = .error (str "error fetching data: " ++ err)) ∧
      (∀ resp, w.Do (req.SetHeader (str "User-Agent") (str "github-activity-fetcher"))
          = .ok resp →
        (resp.StatusCode ≠ 200 → ∃ msg, (fetchUserActivity up w username).result = .error msg) ∧
        (resp.StatusCode = 200 →
          (∀ err, resp.Body = .error err →
            (fetchUserActivity up w username).result
              = .error (str "error reading response: " ++ err)) ∧
          (∀ body err, resp.Body = .ok body → w.UnmarshalEvents body = .error err →
            (fetchUserActivity up w username).result
              = .error (str "error parsing JSON: " ++ err))))) ∧
    (∀ msg, (fetchUserActivity up w username).result = .error msg →
      (fetchUserActivity up w username).stdout = requestLine username ∧
      ∀ prog, main up w [prog, username]
        = ⟨requestLine username, str "Error: " ++ msg ++ str "\n", .status 1⟩) := by
  refine ⟨fun err hreq => ?_, fun req hreq => ⟨fun err hdo => ?_, fun resp hdo =>
    ⟨fun hs => ?_, fun hs => ⟨fun err hbody => ?_, fun body err hbody hdec => ?_⟩⟩⟩,
    fun msg hmsg => ⟨fetch_error_stdout up w username msg hmsg, fun prog => ?_⟩⟩
  · simp only [fetchUserActivity, hreq]
  · simp only [fetchUserActivity, hreq, hdo]
  · by_cases h404 : resp.StatusCode = 404
    · simp only [fetchUserActivity, hreq, hdo, if_pos h404]
      exact ⟨_, rfl⟩
    · simp only [fetchUserActivity, hreq, hdo, if_neg h404, if_pos hs]
      exact ⟨_, rfl⟩
  · have h404 : ¬ resp.StatusCode = 404 := by rw [hs]; decide
    have h200 : ¬ resp.StatusCode ≠ 200 := by rw [hs]; decide
    simp only [fetchUserActivity, hreq, hdo, if_neg h404, if_neg h200, hbody]
  · have h404 : ¬ resp.StatusCode = 404 := by rw [hs]; decide
    have h200 : ¬ resp.StatusCode ≠ 200 := by rw [hs]; decide
    simp only [fetchUserActivity, hreq, hdo, if_neg h404, if_neg h200, hbody, hdec]
  · have hout := fetch_error_stdout up w username msg hmsg
    have hlen : ¬ [prog, username].length < 2 := by simp
    simp only [main, if_neg hlen, List.get?_cons_succ, List.get?_cons_zero, hmsg, hout]

/-- C12 at a 404 response, a transport failure, a failed read of the body and a
body that is not JSON, for the user `torvalds`. -/
theorem C12_no_partial_output_witness :
    main id (worldOf none (.ok ⟨404, .ok []⟩) (.ok [])) [str "github-activity", str "torvalds"]
      = ⟨str "Fetching activity for GitHub user: torvalds\n\n",
         str "Error: user 'torvalds' not found\n", .status 1⟩ ∧
    (fetchUserActivity id (worldOf none (.error (str "dial tcp: timeout")) (.ok []))
        (str "torvalds")).result = .error (str "error fetching data: dial tcp: timeout") ∧
    (fetchUserActivity id
        (worldOf none (.ok ⟨200, .error (str "unexpected EOF")⟩) (.ok []))
        (str "torvalds")).result = .error (str "error reading response: unexpected EOF") ∧
    (fetchUserActivity id
        (worldOf none (.ok ⟨200, .ok (str "<html>")⟩) (.error (str "invalid character")))
        (str "torvalds")).stdout = str "Fetching activity for GitHub user: torvalds\n\n" :=
  ⟨(((C12_no_partial_output id (worldOf none (.ok ⟨404, .ok []⟩) (.ok []))
        (str "torvalds")).2.2 (str "user 'torvalds' not found")
        (congrArg Result.error (by decide))).2 (str "github-activity")).trans
      (by
        have h1 : requestLine (str "torvalds")
            = str "Fetching activity for GitHub user: torvalds\n\n" := by decide
        have h2 : str "Error: " ++ str "user 'torvalds' not found" ++ str "\n"
            = str "Error: user 'torvalds' not found\n" := by decide
        rw [h1, h2]),
   (((C12_no_partial_output id (worldOf none (.error (str "dial tcp: timeout")) (.ok []))
        (str "torvalds")).2.1 _ rfl).1 _ rfl).trans (congrArg Result.error (by decide)),
   (((((C12_no_partial_output id
        (worldOf none (.ok ⟨200, .error (str "unexpected EOF")⟩) (.ok []))
        (str "torvalds")).2.1 _ rfl).2 _ rfl).2 rfl).1 _ rfl).trans
      (congrArg Result.error (by decide)),
   (((C12_no_partial_output id
        (worldOf none (.ok ⟨200, .ok (str "<html>")⟩) (.error (str "invalid character")))
        (str "torvalds")).2.2 (str "error parsing JSON: invalid character")
        (congrArg Result.error (by decide))).1).trans (by decide)⟩

/-! ## C13 — the shape of a line -/

/-- A template that ends with a space before the repository name ends with the
repository name and the timestamp in parentheses, after a space. -/
theorem line_ends (p r t : Bytes) :
    (str " " ++ r ++ str " (" ++ t ++ str ")") <:+
      (p ++ str " " ++ r ++ str " (" ++ t ++ str ")") :=
  ⟨p, by simp only [List.append_assoc]⟩

/-- C13: every line of `formatEvent` ends with a space, the repository name
verbatim, a space, and the rendering of `created_at` in parentheses — whatever
the type tag and the payload. -/
theorem C13_line_shape (up : Nat → Nat) (e : Event) :
    ∃ line, formatEvent up e = some line ∧
      (str " " ++ e.Repo.Name ++ str " (" ++ e.CreatedAt.Format ++ str ")") <:+ line := by
  have hin : ∀ x : Bytes, x ++ str " in " = x ++ str " in" ++ str " " := by
    intro x
    rw [List.append_assoc x (str " in") (str " ")]
    rfl
  have hto : ∀ x : Bytes, x ++ str " to " = x ++ str " to" ++ str " " := by
    intro x
    rw [List.append_assoc x (str " to") (str " ")]
    rfl
  by_cases hrec : e.Type_ ∈ recognized
  · simp only [recognized, List.mem_cons, List.mem_singleton, List.not_mem_nil, or_false]
      at hrec
    rcases hrec with h | h | h | h | h | h | h | h | h | h | h | h
    · refine ⟨_, formatEvent_push up e h, ?_⟩
      rw [hto]
      exact line_ends _ _ _
    · refine ⟨_, formatEvent_create up e h, ?_⟩
      rw [hin]
      exact line_ends _ _ _
    · refine ⟨_, formatEvent_delete up e h, ?_⟩
      rw [hin]
      exact line_ends _ _ _
    · obtain ⟨r, hr⟩ := capitalize_total up
        (if (Unmarshal storeIssues e.Payload ⟨[]⟩).Action = [] then str "updated"
          else (Unmarshal storeIssues e.Payload ⟨[]⟩).Action)
      refine ⟨_, by rw [formatEvent_issues up e h, hr]; rfl, ?_⟩
      have : str "📝 " ++ r ++ str " an issue in "
          = str "📝 " ++ r ++ str " an issue in" ++ str " " := by
        rw [List.append_assoc _ (str " an issue in") (str " ")]
        rfl
      beta_reduce
      rw [this]
      exact line_ends _ _ _
    · refine ⟨_, formatEvent_issueComment up e h, ?_⟩
      exact line_ends (str "💬 Commented on an issue in") _ _
    · refine ⟨_, formatEvent_watch up e h, ?_⟩
      exact line_ends (str "⭐ Starred") _ _
    · refine ⟨_, formatEvent_fork up e h, ?_⟩
      exact line_ends (str "🍴 Forked") _ _
    · obtain ⟨r, hr⟩ := capitalize_total up
        (if (Unmarshal storePullRequest e.Payload ⟨[]⟩).Action = [] then str "updated"
          else (Unmarshal storePullRequest e.Payload ⟨[]⟩).Action)
      refine ⟨_, by rw [formatEvent_pullRequest up e h, hr]; rfl, ?_⟩
      have : str " " ++ r ++ str " a pull request in "
          = str " " ++ r ++ str " a pull request in" ++ str " " := by
        rw [List.append_assoc _ (str " a pull request in") (str " ")]
        rfl
      beta_reduce
      rw [this]
      exact line_ends _ _ _
    · refine ⟨_, formatEvent_review up e h, ?_⟩
      exact line_ends (str " Reviewed a pull request in") _ _
    · refine ⟨_, formatEvent_reviewComment up e h, ?_⟩
      exact line_ends (str " Commented on a pull request in") _ _
    · refine ⟨_, formatEvent_release up e h, ?_⟩
      exact line_ends (str " Published a release in") _ _
    · refine ⟨_, formatEvent_member up e h, ?_⟩
      exact line_ends (str " Added a collaborator to") _ _
  · obtain ⟨name, hname⟩ := fallback_total e.Type_
    refine ⟨_, by rw [formatEvent_unrecognized up e hrec, hname]; rfl, ?_⟩
    beta_reduce
    rw [hin]
    exact line_ends _ _ _

/-! ## C14 — verb phrases of the kinds without payload field -/

/-- C14: for the seven recognized kinds that consult no payload field, the line
is the glyph (empty for the last four), a space, the verb phrase of the dispatch
table, a space, the repository name and the timestamp in parentheses:
`Commented on an issue in`, `Starred` and `Forked` (the repository name follows
directly), `Reviewed a pull request in`, `Commented on a pull request in`,
`Published a release in`, `Added a collaborator to`. -/
theorem C14_fixed_verb_phrases (up : Nat → Nat) (e : Event) :
    (e.Type_ = str "IssueCommentEvent" →
      formatEvent up e = some (str "💬" ++ str " " ++ str "Commented on an issue in" ++ str " " ++
        e.Repo.Name ++ str " (" ++ e.CreatedAt.Format ++ str ")")) ∧
    (e.Type_ = str "WatchEvent" →
      formatEvent up e = some (str "⭐" ++ str " " ++ str "Starred" ++ str " " ++
        e.Repo.Name ++ str " (" ++ e.CreatedAt.Format ++ str ")")) ∧
    (e.Type_ = str "ForkEvent" →
      formatEvent up e = some (str "🍴" ++ str " " ++ str "Forked" ++ str " " ++
        e.Repo.Name ++ str " (" ++ e.CreatedAt.Format ++ str ")")) ∧
    (e.Type_ = str "PullRequestReviewEvent" →
      formatEvent up e = some (str "" ++ str " " ++ str "Reviewed a pull request in" ++ str " " ++
        e.Repo.Name ++ str " (" ++ e.CreatedAt.Format ++ str ")")) ∧
    (e.Type_ = str "PullRequestReviewCommentEvent" →
      formatEvent up e = some (str "" ++ str " " ++ str "Commented on a pull request in" ++
        str " " ++ e.Repo.Name ++ str " (" ++ e.CreatedAt.Format ++ str ")")) ∧
    (e.Type_ = str "ReleaseEvent" →
      formatEvent up e = some (str "" ++ str " " ++ str "Published a release in" ++ str " " ++
        e.Repo.Name ++ str " (" ++ e.CreatedAt.Format ++ str ")")) ∧
    (e.Type_ = str "MemberEvent" →
      formatEvent up e = some (str "" ++ str " " ++ str "Added a collaborator to" ++ str " " ++
        e.Repo.Name ++ str " (" ++ e.CreatedAt.Format ++ str ")")) := by
  refine ⟨fun h => ?_, fun h => ?_, fun h => ?_, fun h => ?_, fun h => ?_, fun h => ?_,
    fun h => ?_⟩
  · rw [formatEvent_issueComment up e h]; rfl
  · rw [formatEvent_watch up e h]; rfl
  · rw [formatEvent_fork up e h]; rfl
  · rw [formatEvent_review up e h]; rfl
  · rw [formatEvent_reviewComment up e h]; rfl
  · rw [formatEvent_release up e h]; rfl
  · rw [formatEvent_member up e h]; rfl

set_option maxRecDepth 20000 in
/-- C14 at one event of each of the seven kinds. -/
theorem C14_fixed_verb_phrases_witness :
    formatEvent id (sampleEvent "IssueCommentEvent" .absent)
      = some (str "💬 Commented on an issue in octo/repo (2024-01-02 03:04)") ∧
    formatEvent id (sampleEvent "WatchEvent" .absent)
      = some (str "⭐ Starred octo/repo (2024-01-02 03:04)") ∧
    formatEvent id (sampleEvent "ForkEvent" .absent)
      = some (str "🍴 Forked octo/repo (2024-01-02 03:04)") ∧
    formatEvent id (sampleEvent "PullRequestReviewEvent" .absent)
      = some (str " Reviewed a pull request in octo/repo (2024-01-02 03:04)") ∧
    formatEvent id (sampleEvent "PullRequestReviewCommentEvent" .absent)
      = some (str " Commented on a pull request in octo/repo (2024-01-02 03:04)") ∧
    formatEvent id (sampleEvent "ReleaseEvent" .absent)
      = some (str " Published a release in octo/repo (2024-01-02 03:04)") ∧
    formatEvent id (sampleEvent "MemberEvent" .absent)
      = some (str " Added a collaborator to octo/repo (2024-01-02 03:04)") :=
  ⟨((C14_fixed_verb_phrases id _).1 (by decide)).trans (by decide),
   ((C14_fixed_verb_phrases id _).2.1 (by decide)).trans (by decide),
   ((C14_fixed_verb_phrases id _).2.2.1 (by decide)).trans (by decide),
   ((C14_fixed_verb_phrases id _).2.2.2.1 (by decide)).trans (by decide),
   ((C14_fixed_verb_phrases id _).2.2.2.2.1 (by decide)).trans (by decide),
   ((C14_fixed_verb_phrases id _).2.2.2.2.2.1 (by decide)).trans (by decide),
   ((C14_fixed_verb_phrases id _).2.2.2.2.2.2 (by decide)).trans (by decide)⟩

/-! ## C15 — a payload field that is present is used -/

/-- On a non-empty string `capitalize` replaces the first rune and keeps the rest. -/
theorem capitalize_nonempty (up : Nat → Nat) (a : Bytes) (ha : a ≠ []) :
    capitalize up a = some (encodeRune (ToUpper up (DecodeRuneInString a).1) ++
      a.drop (DecodeRuneInString a).2) := by
  unfold capitalize
  rw [if_neg ha]
  have hle := decode_size_le a
  have hb : (0 : Int) ≤ ((DecodeRuneInString a).2 : Int) ∧
      ((DecodeRuneInString a).2 : Int) ≤ (a.length : Int) := by omega
  simp only [sliceFrom, if_pos hb, Option.map_some', Int.toNat_ofNat]

/-- C15: a consulted payload field that decodes to a non-empty string is used in
the line.  For an IssuesEvent and a PullRequestEvent with action `a` the verb
phrase is the capitalized `a` — its first rune in upper case, the bytes after
that rune unchanged — followed by ` an issue in` and ` a pull request in`; for a
CreateEvent and a DeleteEvent with ref_type `r` it is `Created ` and `Deleted `
followed by `r` verbatim and ` in`. -/
theorem C15_payload_field_used (up : Nat → Nat) (e : Event) :
    (e.Type_ = str "IssuesEvent" →
      ∀ a, (Unmarshal storeIssues e.Payload ⟨[]⟩).Action = a → a ≠ [] →
        capitalize up a = some (encodeRune (ToUpper up (DecodeRuneInString a).1) ++
          a.drop (DecodeRuneInString a).2) ∧
        formatEvent up e = (capitalize up a).map fun cap =>
          str "📝 " ++ cap ++ str " an issue in " ++ e.Repo.Name ++ str " (" ++
            e.CreatedAt.Format ++ str ")") ∧
    (e.Type_ = str "PullRequestEvent" →
      ∀ a, (Unmarshal storePullRequest e.Payload ⟨[]⟩).Action = a → a ≠ [] →
        capitalize up a = some (encodeRune (ToUpper up (DecodeRuneInString a).1) ++
          a.drop (DecodeRuneInString a).2) ∧
        formatEvent up e = (capitalize up a).map fun cap =>
          str " " ++ cap ++ str " a pull request in " ++ e.Repo.Name ++ str " (" ++
            e.CreatedAt.Format ++ str ")") ∧
    (e.Type_ = str "CreateEvent" →
      ∀ r, (Unmarshal storeCreate e.Payload ⟨[]⟩).RefType = r → r ≠ [] →
        formatEvent up e = some (str "✨ Created " ++ r ++ str " in " ++ e.Repo.Name ++
          str " (" ++ e.CreatedAt.Format ++ str ")")) ∧
    (e.Type_ = str "DeleteEvent" →
      ∀ r, (Unmarshal storeDelete e.Payload ⟨[]⟩).RefType = r → r ≠ [] →
        formatEvent up e = some (str "🗑️  Deleted " ++ r ++ str " in " ++ e.Repo.Name ++
          str " (" ++ e.CreatedAt.Format ++ str ")")) := by
  refine ⟨fun h a ha hne => ⟨capitalize_nonempty up a hne, ?_⟩,
    fun h a ha hne => ⟨capitalize_nonempty up a hne, ?_⟩, fun h r hr hne => ?_,
    fun h r hr hne => ?_⟩
  · rw [formatEvent_issues up e h, ha, if_neg hne]
  · rw [formatEvent_pullRequest up e h, ha, if_neg hne]
  · rw [formatEvent_create up e h, hr, if_neg hne]
  · rw [formatEvent_delete up e h, hr, if_neg hne]

/-- C15 at an IssuesEvent with action `opened`, a PullRequestEvent with action
`élargi` (first rune of two bytes), a CreateEvent with ref_type `tag` and a
DeleteEvent with ref_type `tag`. -/
theorem C15_payload_field_used_witness :
    formatEvent sampleUpper (sampleEvent "IssuesEvent"
        (.json (.object [(str "action", .string (str "opened"))])))
      = some (str "📝 Opened an issue in octo/repo (2024-01-02 03:04)") ∧
    formatEvent sampleUpper (sampleEvent "PullRequestEvent"
        (.json (.object [(str "action", .string (str "élargi"))])))
      = some (str " Élargi a pull request in octo/repo (2024-01-02 03:04)") ∧
    formatEvent sampleUpper (sampleEvent "CreateEvent"
        (.json (.object [(str "ref_type", .string (str "tag"))])))
      = some (str "✨ Created tag in octo/repo (2024-01-02 03:04)") ∧
    formatEvent sampleUpper (sampleEvent "DeleteEvent"
        (.json (.object [(str "ref_type", .string (str "tag"))])))
      = some (str "🗑️  Deleted tag in octo/repo (2024-01-02 03:04)") :=
  ⟨(((C15_payload_field_used sampleUpper _).1 (by decide) (str "opened") (by decide)
      (by decide)).2).trans (by decide),
   (((C15_payload_field_used sampleUpper _).2.1 (by decide) (str "élargi") (by decide)
      (by decide)).2).trans (by decide),
   ((C15_payload_field_used sampleUpper _).2.2.1 (by decide) (str "tag") (by decide)
      (by decide)).trans (by decide),
   ((C15_payload_field_used sampleUpper _).2.2.2 (by decide) (str "tag") (by decide)
      (by decide)).trans (by decide)⟩

/-! ## C16 — the payload is not read where the table consults none -/

/-- C16: for every type tag other than the five whose case decodes the payload
— the seven recognized kinds without payload field and every unrecognized tag —
two events that agree on type, `created_at` and repository name give the same
line, whatever their payloads. -/
theorem C16_payload_not_read (up : Nat → Nat) (e₁ e₂ : Event)
    (hkind : e₁.Type_ ∉ payloadKinds) (htag : e₁.Type_ = e₂.Type_)
    (htime : e₁.CreatedAt = e₂.CreatedAt) (hrepo : e₁.Repo.Name = e₂.Repo.Name) :
    formatEvent up e₁ = formatEvent up e₂ := by
  have hkind₂ : e₂.Type_ ∉ payloadKinds := htag ▸ hkind
  simp only [payloadKinds, List.mem_cons, List.mem_singleton, not_or, List.not_mem_nil,
    not_false_eq_true, and_true] at hkind hkind₂
  obtain ⟨a1, a2, a3, a4, a5⟩ := hkind
  obtain ⟨b1, b2, b3, b4, b5⟩ := hkind₂
  unfold formatEvent
  simp only [if_neg a1, if_neg a2, if_neg a3, if_neg a4, if_neg a5, if_neg b1, if_neg b2,
    if_neg b3, if_neg b4, if_neg b5]
  rw [htag, htime, hrepo]

/-- C16 at a WatchEvent and at an unrecognized tag, each with and without a
payload. -/
theorem C16_payload_not_read_witness :
    formatEvent id (sampleEvent "WatchEvent"
        (.json (.object [(str "action", .string (str "started"))])))
      = formatEvent id (sampleEvent "WatchEvent" .absent) ∧
    formatEvent id (sampleEvent "GollumEvent" .malformed)
      = formatEvent id (sampleEvent "GollumEvent"
        (.json (.object [(str "ref_type", .string (str "tag"))]))) :=
  ⟨C16_payload_not_read id _ _ (by decide) rfl rfl rfl,
   C16_payload_not_read id _ _ (by decide) rfl rfl rfl⟩

/-! ## C17 — the rendering of the timestamp -/

theorem decimalAux_one (f n : Nat) (acc : Bytes) (h : n < 10) :
    decimalAux (f + 1) n acc = (0x30 + n) :: acc := by
  rw [decimalAux, if_pos h]

theorem decimalAux_two (f n : Nat) (acc : Bytes) (h1 : 10 ≤ n) (h2 : n < 100) :
    decimalAux (f + 2) n acc = (0x30 + n / 10) :: (0x30 + n % 10) :: acc := by
  rw [decimalAux, if_neg (by omega), decimalAux_one f (n / 10) _ (by omega)]

theorem decimalAux_three (f n : Nat) (acc : Bytes) (h1 : 100 ≤ n) (h2 : n < 1000) :
    decimalAux (f + 3) n acc
      = (0x30 + n / 100) :: (0x30 + n / 10 % 10) :: (0x30 + n % 10) :: acc := by
  rw [decimalAux, if_neg (by omega), decimalAux_two f (n / 10) _ (by omega) (by omega)]
  have : n / 10 / 10 = n / 100 := by omega
  rw [this]

theorem decimalAux_four (f n : Nat) (acc : Bytes) (h1 : 1000 ≤ n) (h2 : n < 10000) :
    decimalAux (f + 4) n acc
      = (0x30 + n / 1000) :: (0x30 + n / 100 % 10) :: (0x30 + n / 10 % 10) ::
        (0x30 + n % 10) :: acc := by
  rw [decimalAux, if_neg (by omega),
    decimalAux_three f (n / 10) _ (by omega) (by omega)]
  have e1 : n / 10 / 100 = n / 1000 := by omega
  have e2 : n / 10 / 10 = n / 100 := by omega
  rw [e1, e2]

/-- A number below 100 is rendered by `appendInt` with width 2 as its two digits. -/
theorem appendInt_two (n : Nat) (h : n < 100) :
    appendInt (n : Int) 2 = [0x30 + n / 10, 0x30 + n % 10] := by
  have hneg : ¬ ((n : Int) < 0) := by omega
  unfold appendInt
  simp only [if_neg hneg, Int.natAbs_ofNat, List.nil_append]
  by_cases h10 : n < 10
  · have hd : decimal n = [0x30 + n] := by
      unfold decimal
      exact decimalAux_one n n [] h10
    have h0 : n / 10 = 0 := by omega
    have hm : n % 10 = n := by omega
    rw [hd, h0, hm]
    rfl
  · have hd : decimal n = [0x30 + n / 10, 0x30 + n % 10] := by
      unfold decimal
      have hf : n + 1 = (n - 1) + 2 := by omega
      rw [hf]
      exact decimalAux_two (n - 1) n [] (by omega) h
    rw [hd]
    rfl

/-- A year from 0 to 9999 is rendered by `appendInt` with width 4 as its four digits. -/
theorem appendInt_four (y : Int) (h0 : 0 ≤ y) (h1 : y ≤ 9999) :
    appendInt y 4 = [0x30 + y.toNat / 1000, 0x30 + y.toNat / 100 % 10,
      0x30 + y.toNat / 10 % 10, 0x30 + y.toNat % 10] := by
  obtain ⟨n, rfl⟩ := Int.eq_ofNat_of_zero_le h0
  have hn : n < 10000 := by omega
  have hneg : ¬ ((n : Int) < 0) := by omega
  unfold appendInt
  simp only [if_neg hneg, Int.natAbs_ofNat, List.nil_append, Int.toNat_ofNat]
  by_cases c1 : n < 10
  · have hd : decimal n = [0x30 + n] := by
      unfold decimal
      exact decimalAux_one n n [] c1
    have e1 : n / 1000 = 0 := by omega
    have e2 : n / 100 % 10 = 0 := by omega
    have e3 : n / 10 % 10 = 0 := by omega
    have e4 : n % 10 = n := by omega
    rw [hd, e1, e2, e3, e4]
    rfl
  · by_cases c2 : n < 100
    · have hd : decimal n = [0x30 + n / 10, 0x30 + n % 10] := by
        unfold decimal
        have hf : n + 1 = (n - 1) + 2 := by omega
        rw [hf]
        exact decimalAux_two (n - 1) n [] (by omega) c2
      have e1 : n / 1000 = 0 := by omega
      have e2 : n / 100 % 10 = 0 := by omega
      have e3 : n / 10 % 10 = n / 10 := by omega
      rw [hd, e1, e2, e3]
      rfl
    · by_cases c3 : n < 1000
      · have hd : decimal n = [0x30 + n / 100, 0x30 + n / 10 % 10, 0x30 + n % 10] := by
          unfold decimal
          have hf : n + 1 = (n - 2) + 3 := by omega
          rw [hf]
          exact decimalAux_three (n - 2) n [] (by omega) c3
        have e1 : n / 1000 = 0 := by omega
        have e2 : n / 100 % 10 = n / 100 := by omega
        rw [hd, e1, e2]
        rfl
      · have hd : decimal n = [0x30 + n / 1000, 0x30 + n / 100 % 10, 0x30 + n / 10 % 10,
            0x30 + n % 10] := by
          unfold decimal
          have hf : n + 1 = (n - 3) + 4 := by omega
          rw [hf]
          exact decimalAux_four (n - 3) n [] (by omega) hn
        rw [hd]
        rfl

/-- C17: for a timestamp whose year lies in 0..9999 the rendering is the
sixteen characters `YYYY-MM-DD HH:MM` — the four digits of the year, the two
digits of month, day, hour (0 to 23) and minute, zero-padded — taken from the
fields of the time in its own location; seconds and nanoseconds do not enter, so
two times that differ in them only are rendered alike. -/
theorem C17_timestamp_rendering (t : Time) (hy0 : 0 ≤ t.year) (hy1 : t.year ≤ 9999) :
    t.Format =
      [0x30 + t.year.toNat / 1000, 0x30 + t.year.toNat / 100 % 10,
       0x30 + t.year.toNat / 10 % 10, 0x30 + t.year.toNat % 10, 0x2D,
       0x30 + t.month / 10, 0x30 + t.month % 10, 0x2D,
       0x30 + t.day / 10, 0x30 + t.day % 10, 0x20,
       0x30 + t.hour / 10, 0x30 + t.hour % 10, 0x3A,
       0x30 + t.minute / 10, 0x30 + t.minute % 10] ∧
    t.Format.length = 16 ∧
    ∀ u : Time, u.year = t.year → u.month = t.month → u.day = t.day → u.hour = t.hour →
      u.minute = t.minute → u.Format = t.Format := by
  obtain ⟨_, hmo, _, hd, hh, hmi, _, _⟩ := t.inRange
  have hfmt : t.Format =
      [0x30 + t.year.toNat / 1000, 0x30 + t.year.toNat / 100 % 10,
       0x30 + t.year.toNat / 10 % 10, 0x30 + t.year.toNat % 10, 0x2D,
       0x30 + t.month / 10, 0x30 + t.month % 10, 0x2D,
       0x30 + t.day / 10, 0x30 + t.day % 10, 0x20,
       0x30 + t.hour / 10, 0x30 + t.hour % 10, 0x3A,
       0x30 + t.minute / 10, 0x30 + t.minute % 10] := by
    unfold Time.Format
    rw [appendInt_four t.year hy0 hy1, appendInt_two t.month (by omega),
      appendInt_two t.day (by omega), appendInt_two t.hour (by omega),
      appendInt_two t.minute (by omega)]
    rfl
  refine ⟨hfmt, ?_, ?_⟩
  · rw [hfmt]
    rfl
  · intro u h1 h2 h3 h4 h5
    unfold Time.Format
    rw [h1, h2, h3, h4, h5]

/-- C17 at 2024-01-02T03:04:05 and at 2024-01-02T03:04:59.999999999: both are
rendered `2024-01-02 03:04`. -/
theorem C17_timestamp_rendering_witness :
    sampleTime.Format = str "2024-01-02 03:04" ∧
    (Time.mk 2024 1 2 3 4 59 999999999 (by decide)).Format = str "2024-01-02 03:04" ∧
    (Time.mk 987 11 30 23 59 0 0 (by decide)).Format = str "0987-11-30 23:59" :=
  ⟨(C17_timestamp_rendering sampleTime (by decide) (by decide)).1.trans (by decide),
   ((C17_timestamp_rendering sampleTime (by decide) (by decide)).2.2
      (Time.mk 2024 1 2 3 4 59 999999999 (by decide)) rfl rfl rfl rfl rfl).trans (by decide),
   (C17_timestamp_rendering (Time.mk 987 11 30 23 59 0 0 (by decide)) (by decide)
      (by decide)).1.trans (by decide)⟩

/-! ## C18 and C19 — what the line is made of -/

/-- The display name of the fallback case is the tag or the tag without its
last five bytes: it is not empty for a non-empty tag, it is the tag itself for a
tag of at most five bytes, and all its bytes are bytes of the tag. -/
theorem fallback_name (t name : Bytes)
    (h : (if (t.length : Int) > 5 then
        (sliceFrom t ((t.length : Int) - 5)).bind fun suffix =>
          if suffix = str "Event" then sliceTo t ((t.length : Int) - 5) else some t
      else some t) = some name) :
    (t ≠ [] → name ≠ []) ∧ (t.length ≤ 5 → name = t) ∧ (∀ b ∈ name, b ∈ t) := by
  by_cases hgt : (t.length : Int) > 5
  · rw [if_pos hgt] at h
    have hle : (0 : Int) ≤ (t.length : Int) - 5 ∧ (t.length : Int) - 5 ≤ (t.length : Int) := by
      omega
    simp only [sliceFrom, sliceTo, if_pos hle, Option.some_bind] at h
    split_ifs at h with hs
    · have hname : name = t.take ((t.length : Int) - 5).toNat := (Option.some.inj h).symm
      have hlen : name.length = t.length - 5 := by
        rw [hname, List.length_take]
        omega
      refine ⟨fun _ hnil => ?_, fun h5 => ?_, fun b hb => ?_⟩
      · rw [hnil] at hlen
        simp only [List.length_nil] at hlen
        omega
      · omega
      · rw [hname] at hb
        exact List.mem_of_mem_take hb
    · have hname : name = t := (Option.some.inj h).symm
      exact ⟨fun ht => hname ▸ ht, fun _ => hname, fun b hb => hname ▸ hb⟩
  · rw [if_neg hgt] at h
    have hname : name = t := (Option.some.inj h).symm
    exact ⟨fun ht => hname ▸ ht, fun _ => hname, fun b hb => hname ▸ hb⟩

theorem oneLine_append_intro (a b : Bytes) (ha : oneLine a) (hb : oneLine b) :
    oneLine (a ++ b) := by
  intro x hx
  rcases List.mem_append.mp hx with h | h
  · exact ha x h
  · exact hb x h

/-- The digits that `decimalAux` puts in front of `acc` are decimal digits. -/
theorem decimalAux_digits (fuel n : Nat) (acc : Bytes)
    (hacc : ∀ b ∈ acc, 0x30 ≤ b ∧ b ≤ 0x39) :
    ∀ b ∈ decimalAux fuel n acc, 0x30 ≤ b ∧ b ≤ 0x39 := by
  induction fuel generalizing n acc with
  | zero => exact hacc
  | succ f ih =>
    rw [decimalAux]
    split_ifs with h
    · intro b hb
      rcases List.mem_cons.mp hb with rfl | hb
      · omega
      · exact hacc b hb
    · apply ih
      intro b hb
      rcases List.mem_cons.mp hb with rfl | hb
      · omega
      · exact hacc b hb

theorem oneLine_decimal (n : Nat) : oneLine (decimal n) := by
  intro b hb
  have := decimalAux_digits (n + 1) n [] (fun _ h => absurd h (List.not_mem_nil _)) b hb
  omega

theorem oneLine_formatInt (x : Int) : oneLine (formatInt x) := by
  unfold formatInt
  apply oneLine_append_intro
  · split_ifs <;> decide
  · exact oneLine_decimal _

theorem oneLine_appendInt (x : Int) (width : Nat) : oneLine (appendInt x width) := by
  unfold appendInt
  apply oneLine_append_intro
  · apply oneLine_append_intro
    · split_ifs <;> decide
    · intro b hb
      rw [List.eq_of_mem_replicate hb]
      decide
  · exact oneLine_decimal _

/-- The timestamp holds digits, hyphens, a space and a colon. -/
theorem oneLine_Format (t : Time) : oneLine t.Format := by
  have hyphen : oneLine (str "-") := by decide
  have space : oneLine (str " ") := by decide
  have colon : oneLine (str ":") := by decide
  exact oneLine_append_intro _ _ (oneLine_append_intro _ _ (oneLine_append_intro _ _
    (oneLine_append_intro _ _ (oneLine_append_intro _ _ (oneLine_append_intro _ _
    (oneLine_append_intro _ _ (oneLine_append_intro _ _ (oneLine_appendInt t.year 4) hyphen)
    (oneLine_appendInt t.month 2)) hyphen) (oneLine_appendInt t.day 2)) space)
    (oneLine_appendInt t.hour 2)) colon) (oneLine_appendInt t.minute 2)

/-- A line is without line break when its template part, the repository name
and the timestamp are. -/
theorem oneLine_line (p r : Bytes) (t : Time) (hp : oneLine p) (hr : oneLine r) :
    oneLine (p ++ r ++ str " (" ++ t.Format ++ str ")") :=
  oneLine_append_intro _ _ (oneLine_append_intro _ _ (oneLine_append_intro _ _
    (oneLine_append_intro _ _ hp hr) (by decide)) (oneLine_Format t)) (by decide)

/-- The encoding of a rune other than line feed and carriage return holds neither. -/
theorem oneLine_encodeRune (r : Nat) (h1 : r ≠ 0x0A) (h2 : r ≠ 0x0D) :
    oneLine (encodeRune r) := by
  unfold encodeRune
  split_ifs <;> intro b hb <;> simp only [List.mem_cons, List.mem_singleton,
    List.not_mem_nil, or_false] at hb <;> omega

/-- The first rune of a non-empty string is its first byte or lies above U+007F. -/
theorem decode_first (s : Bytes) (hs : s ≠ []) :
    (DecodeRuneInString s).1 ∈ s ∨ 0x7F < (DecodeRuneInString s).1 := by
  match s with
  | [] => exact absurd rfl hs
  | a :: rest =>
    rw [DecodeRuneInString]
    by_cases h1 : a < 0x80
    · rw [if_pos h1]; left; simp
    rw [if_neg h1]
    by_cases h2 : a < 0xC2 ∨ 0xF4 < a
    · rw [if_pos h2]; right; simp [RuneError]
    rw [if_neg h2]
    right
    have hE0 : a = 0xE0 → (acceptRange a).1 = 0xA0 := by
      intro h; rw [h]; rfl
    have hF0 : a = 0xF0 → (acceptRange a).1 = 0x90 := by
      intro h; rw [h]; rfl
    have hhi : (acceptRange a).2 ≤ 0xBF := by
      unfold acceptRange
      split_ifs <;> simp
    have hsz : ((if a < 0xE0 then 2 else if a < 0xF0 then 3 else 4) = 2 ∧ a < 0xE0) ∨
        ((if a < 0xE0 then 2 else if a < 0xF0 then 3 else 4) = 3 ∧ 0xE0 ≤ a ∧ a < 0xF0) ∨
        ((if a < 0xE0 then 2 else if a < 0xF0 then 3 else 4) = 4 ∧ 0xF0 ≤ a) := by
      split_ifs <;> omega
    generalize (if a < 0xE0 then 2 else if a < 0xF0 then 3 else 4) = sz at hsz
    generalize acceptRange a = accept at hE0 hF0 hhi
    simp only []
    by_cases h3 : (a :: rest).length < sz
    · rw [if_pos h3]; simp [RuneError]
    rw [if_neg h3]
    simp only [List.length_cons] at h3
    rcases hsz with ⟨rfl, ha⟩ | ⟨rfl, ha⟩ | ⟨rfl, ha⟩
    · match rest with
      | [] => simp [RuneError]
      | b :: rest1 =>
        simp only []
        split_ifs <;> simp only [RuneError] <;> omega
    · match rest with
      | [] => simp [RuneError]
      | [b] => simp at h3
      | b :: c :: rest2 =>
        simp only []
        split_ifs <;> simp only [RuneError] <;> omega
    · match rest with
      | [] => simp [RuneError]
      | [b] => simp at h3
      | [b, c] => simp at h3
      | b :: c :: d :: rest3 =>
        simp only []
        split_ifs <;> simp only [RuneError] <;> omega

/-- Capitalizing a string without line break gives a string without line break,
when the case table yields neither line feed nor carriage return. -/
theorem oneLine_capitalize (up : Nat → Nat) (a cap : Bytes)
    (hup : ∀ r, 0x7F < r → up r ≠ 0x0A ∧ up r ≠ 0x0D) (ha : oneLine a)
    (h : capitalize up a = some cap) : oneLine cap := by
  by_cases hnil : a = []
  · rw [hnil] at h
    have : cap = [] := (Option.some.inj h).symm
    rw [this]
    intro b hb
    exact absurd hb (List.not_mem_nil _)
  · rw [capitalize_nonempty up a hnil] at h
    rw [← Option.some.inj h]
    apply oneLine_append_intro
    · have hr : ToUpper up (DecodeRuneInString a).1 ≠ 0x0A ∧
          ToUpper up (DecodeRuneInString a).1 ≠ 0x0D := by
        unfold ToUpper
        rcases decode_first a hnil with hm | hhigh
        · have := ha _ hm
          split_ifs <;> first | omega | exact hup _ (by omega)
        · rw [if_neg (by omega)]
          exact hup _ hhigh
      exact oneLine_encodeRune _ hr.1 hr.2
    · intro b hb
      exact ha b (List.mem_of_mem_drop hb)

theorem consulted_create (e : Event) (h : e.Type_ = str "CreateEvent") :
    consulted e = (Unmarshal storeCreate e.Payload ⟨[]⟩).RefType := by
  unfold consulted
  rw [h]
  simp +decide only [if_false, if_true]

theorem consulted_delete (e : Event) (h : e.Type_ = str "DeleteEvent") :
    consulted e = (Unmarshal storeDelete e.Payload ⟨[]⟩).RefType := by
  unfold consulted
  rw [h]
  simp +decide only [if_false, if_true]

theorem consulted_issues (e : Event) (h : e.Type_ = str "IssuesEvent") :
    consulted e = (Unmarshal storeIssues e.Payload ⟨[]⟩).Action := by
  unfold consulted
  rw [h]
  simp +decide only [if_false, if_true]

theorem consulted_pullRequest (e : Event) (h : e.Type_ = str "PullRequestEvent") :
    consulted e = (Unmarshal storePullRequest e.Payload ⟨[]⟩).Action := by
  unfold consulted
  rw [h]
  simp +decide only [if_false, if_true]

/-- C18, as stated, fails at a WatchEvent whose repository name holds a line
feed: the name is copied into the line as it is, so the returned string holds
the line feed. -/
theorem C18_counterexample_repo_with_line_feed :
    formatEvent id ⟨str "WatchEvent", sampleTime, ⟨str "octo\nrepo"⟩, .absent⟩
      = some (str "⭐ Starred octo\nrepo (2024-01-02 03:04)") ∧
    0x0A ∈ str "⭐ Starred octo\nrepo (2024-01-02 03:04)" ∧
    ¬ oneLine (str "⭐ Starred octo\nrepo (2024-01-02 03:04)") := by
  decide

/-- C18 (amended): `formatEvent` adds no line break of its own — when the
repository name, the type tag and the string taken from the payload hold no
line feed and no carriage return (and upper-casing a rune yields neither), the
returned line holds none. -/
theorem C18_single_line (up : Nat → Nat) (e : Event)
    (hup : ∀ r, 0x7F < r → up r ≠ 0x0A ∧ up r ≠ 0x0D)
    (hrepo : oneLine e.Repo.Name) (htag : oneLine e.Type_) (hfield : oneLine (consulted e)) :
    ∃ line, formatEvent up e = some line ∧ oneLine line := by
  by_cases hrec : e.Type_ ∈ recognized
  · simp only [recognized, List.mem_cons, List.mem_singleton, List.not_mem_nil, or_false]
      at hrec
    rcases hrec with h | h | h | h | h | h | h | h | h | h | h | h
    · refine ⟨_, formatEvent_push up e h, oneLine_line _ _ _ ?_ hrepo⟩
      refine oneLine_append_intro _ _ (oneLine_append_intro _ _ (oneLine_append_intro _ _
        (oneLine_append_intro _ _ (by decide) (oneLine_formatInt _)) (by decide)) ?_)
        (by decide)
      split_ifs <;> decide
    · refine ⟨_, formatEvent_create up e h, oneLine_line _ _ _ ?_ hrepo⟩
      refine oneLine_append_intro _ _ (oneLine_append_intro _ _ (by decide) ?_) (by decide)
      rw [consulted_create e h] at hfield
      split_ifs
      · decide
      · exact hfield
    · refine ⟨_, formatEvent_delete up e h, oneLine_line _ _ _ ?_ hrepo⟩
      refine oneLine_append_intro _ _ (oneLine_append_intro _ _ (by decide) ?_) (by decide)
      rw [consulted_delete e h] at hfield
      split_ifs
      · decide
      · exact hfield
    · obtain ⟨cap, hcap⟩ := capitalize_total up
        (if (Unmarshal storeIssues e.Payload ⟨[]⟩).Action = [] then str "updated"
          else (Unmarshal storeIssues e.Payload ⟨[]⟩).Action)
      rw [consulted_issues e h] at hfield
      have hact : oneLine (if (Unmarshal storeIssues e.Payload ⟨[]⟩).Action = []
          then str "updated" else (Unmarshal storeIssues e.Payload ⟨[]⟩).Action) := by
        split_ifs
        · decide
        · exact hfield
      have hc : oneLine cap := oneLine_capitalize up _ cap hup hact hcap
      refine ⟨_, by rw [formatEvent_issues up e h, hcap]; rfl, oneLine_line _ _ _ ?_ hrepo⟩
      exact oneLine_append_intro _ _ (oneLine_append_intro _ _ (by decide) hc) (by decide)
    · exact ⟨_, formatEvent_issueComment up e h, oneLine_line _ _ _ (by decide) hrepo⟩
    · exact ⟨_, formatEvent_watch up e h, oneLine_line _ _ _ (by decide) hrepo⟩
    · exact ⟨_, formatEvent_fork up e h, oneLine_line _ _ _ (by decide) hrepo⟩
    · obtain ⟨cap, hcap⟩ := capitalize_total up
        (if (Unmarshal storePullRequest e.Payload ⟨[]⟩).Action = [] then str "updated"
          else (Unmarshal storePullRequest e.Payload ⟨[]⟩).Action)
      rw [consulted_pullRequest e h] at hfield
      have hact : oneLine (if (Unmarshal storePullRequest e.Payload ⟨[]⟩).Action = []
          then str "updated" else (Unmarshal storePullRequest e.Payload ⟨[]⟩).Action) := by
        split_ifs
        · decide
        · exact hfield
      have hc : oneLine cap := oneLine_capitalize up _ cap hup hact hcap
      refine ⟨_, by rw [formatEvent_pullRequest up e h, hcap]; rfl,
        oneLine_line _ _ _ ?_ hrepo⟩
      exact oneLine_append_intro _ _ (oneLine_append_intro _ _ (by decide) hc) (by decide)
    · exact ⟨_, formatEvent_review up e h, oneLine_line _ _ _ (by decide) hrepo⟩
    · exact ⟨_, formatEvent_reviewComment up e h, oneLine_line _ _ _ (by decide) hrepo⟩
    · exact ⟨_, formatEvent_release up e h, oneLine_line _ _ _ (by decide) hrepo⟩
    · exact ⟨_, formatEvent_member up e h, oneLine_line _ _ _ (by decide) hrepo⟩
  · obtain ⟨name, hname⟩ := fallback_total e.Type_
    have hn : oneLine name := fun b hb => htag b ((fallback_name e.Type_ name hname).2.2 b hb)
    refine ⟨_, by rw [formatEvent_unrecognized up e hrec, hname]; rfl,
      oneLine_line _ _ _ ?_ hrepo⟩
    exact oneLine_append_intro _ _ (oneLine_append_intro _ _ (by decide) hn) (by decide)

/-- C18 (amended) at an IssuesEvent with action `opened` and at an unrecognized
tag, for the repository `octo/repo`. -/
theorem C18_single_line_witness :
    (∃ line, formatEvent sampleUpper (sampleEvent "IssuesEvent"
        (.json (.object [(str "action", .string (str "opened"))]))) = some line ∧
      oneLine line) ∧
    (∃ line, formatEvent sampleUpper (sampleEvent "GollumEvent" .absent) = some line ∧
      oneLine line) :=
  ⟨C18_single_line sampleUpper _
      (fun r _ => by unfold sampleUpper; split_ifs <;> omega) (by decide) (by decide)
      (by decide),
   C18_single_line sampleUpper _
      (fun r _ => by unfold sampleUpper; split_ifs <;> omega) (by decide) (by decide)
      (by decide)⟩

/-- C19: in the fallback case the name shown between `📌 ` and ` in` is never
empty for a non-empty tag, and it is the tag itself whenever the tag has five
bytes or fewer — the suffix is stripped from tags strictly longer than five
bytes only. -/
theorem C19_fallback_name_not_empty (up : Nat → Nat) (e : Event)
    (hun : e.Type_ ∉ recognized) :
    ∃ name, formatEvent up e = some (str "📌 " ++ name ++ str " in " ++ e.Repo.Name ++
        str " (" ++ e.CreatedAt.Format ++ str ")") ∧
      (e.Type_ ≠ [] → name ≠ []) ∧ (e.Type_.length ≤ 5 → name = e.Type_) ∧
      (name ≠ e.Type_ → 5 < e.Type_.length) := by
  obtain ⟨name, hname⟩ := fallback_total e.Type_
  obtain ⟨h1, h2, _⟩ := fallback_name e.Type_ name hname
  refine ⟨name, by rw [formatEvent_unrecognized up e hun, hname]; rfl, h1, h2, fun hne => ?_⟩
  by_contra hle
  exact hne (h2 (by omega))

/-- C19 at the tag `Event`, which has exactly five bytes and is shown whole. -/
theorem C19_fallback_name_not_empty_witness :
    ∃ name, formatEvent id (sampleEvent "Event" .absent)
        = some (str "📌 " ++ name ++ str " in " ++ (sampleEvent "Event" .absent).Repo.Name ++
          str " (" ++ (sampleEvent "Event" .absent).CreatedAt.Format ++ str ")") ∧
      ((sampleEvent "Event" .absent).Type_ ≠ [] → name ≠ []) ∧
      ((sampleEvent "Event" .absent).Type_.length ≤ 5 →
        name = (sampleEvent "Event" .absent).Type_) ∧
      (name ≠ (sampleEvent "Event" .absent).Type_ →
        5 < (sampleEvent "Event" .absent).Type_.length) :=
  C19_fallback_name_not_empty id (sampleEvent "Event" .absent) (by decide)

end GoCli
